import Mathlib

/-!
Verification of the geomagnetic raw-data conversion program
(`scripts/geomagnetic_processor.py`).

The program is embedded shallowly:

* Python strings become `List Char`; `str.strip`, `str.split`,
  `str.isdigit`, `str.upper` and f-string field padding are modelled by
  executable Lean functions below.
* Python `float` arithmetic is idealised as exact rational arithmetic
  (`ℚ`), the standard idealisation for this kind of numeric pipeline;
  `int(x)` (truncation toward zero) becomes `truncQ`, and
  `int(math.sqrt(x) * 10)` becomes `sqrtTimes10Trunc` (an executable
  integer square root, proved below to agree with
  `⌊Real.sqrt x * 10⌋`).
* Python exceptions (`ZeroDivisionError`, `IndexError`, `ValueError`,
  and the `sys.exit` wrappers) become `Except String` results.  The
  program never inspects exception payloads, so the embedding does not
  distinguish the message texts.
* Python list indexing/assignment (including negative-index wrap-around
  and `IndexError`) is modelled by `pyIndex`, `pyListGet`,
  `pyListSetIdx`.
* The two regular-expression substitutions of `format_data_line` are
  embedded by a direct implementation of leftmost, greedy (backtracking)
  matching of the two concrete patterns
  `(\d+\.\d+)(-?\d+\.\d+)` and `(\-?\d+\.\d+)(\-?\d+\.\d+)`,
  specialised to those patterns (`matchCore`, `matchAt`, `subPassAux`).
* File-system side effects (reading the raw file, creating `output/`,
  writing the output file, the MinIO upload sink) are outside the
  embedding: functions take the file's lines as input and return the
  produced text.  `read_baselines` only performs I/O and float parsing,
  so the baseline triple (H0, D0, Z0) is taken as an input.
-/

deriving instance DecidableEq for Except

/-! ## Character and string utilities (Python `str` operations) -/

/-- Python's `\d` character class (ASCII digits, as used by this data). -/
def isDig (c : Char) : Bool := c.isDigit

/-- Whitespace, as recognised by Python `str.strip` / `str.split`. -/
def isWs (c : Char) : Bool := c.isWhitespace

/-- Helper for `splitWs`: accumulates the current token (reversed). -/
def splitWsAux : List Char → List Char → List (List Char)
  | [], acc => if acc = [] then [] else [acc.reverse]
  | c :: t, acc =>
    if isWs c then
      (if acc = [] then splitWsAux t [] else acc.reverse :: splitWsAux t [])
    else splitWsAux t (c :: acc)

/-- Python `str.split()` with no argument: split on runs of whitespace,
with no empty tokens. -/
def splitWs (l : List Char) : List (List Char) := splitWsAux l []

/-- Python `str.strip()`: drop leading and trailing whitespace. -/
def pyStrip (l : List Char) : List Char :=
  ((l.dropWhile isWs).reverse.dropWhile isWs).reverse

/-- Value of a digit string, most significant digit first. -/
def natOfDigits (l : List Char) : ℕ :=
  l.foldl (fun acc c => 10 * acc + (c.toNat - 48)) 0

/-- Python `int(s)` on a whitespace-free token: optional sign followed by
digits.  (The raw files only ever contain plain decimal integers.) -/
def parseIntChars (l : List Char) : Option ℤ :=
  match l with
  | '-' :: t => if t ≠ [] ∧ t.all isDig then some (-(natOfDigits t : ℤ)) else none
  | '+' :: t => if t ≠ [] ∧ t.all isDig then some ((natOfDigits t : ℤ)) else none
  | t => if t ≠ [] ∧ t.all isDig then some ((natOfDigits t : ℤ)) else none

/-- Unsigned part of Python `float(s)`: `digits`, `digits.digits`,
`digits.` or `.digits` (the plain decimal notation used by the raw
data; exponent notation does not occur in this format). -/
def parseDecCore (t : List Char) : Option ℚ :=
  let i := t.takeWhile isDig
  match t.dropWhile isDig with
  | [] => if i = [] then none else some ((natOfDigits i : ℚ))
  | c :: f =>
    if c = '.' ∧ f.all isDig ∧ (i ≠ [] ∨ f ≠ []) then
      some ((natOfDigits (i ++ f) : ℚ) / 10 ^ f.length)
    else none

/-- Python `float(s)` on a token, plain decimal notation. -/
def parseRatChars (l : List Char) : Option ℚ :=
  match l with
  | '-' :: t => (parseDecCore t).map (fun q => -q)
  | '+' :: t => parseDecCore t
  | t => parseDecCore t

/-- `a, b, c = map(int, parts)`: unpacking succeeds only for exactly
three parseable tokens. -/
def parseInt3 (parts : List (List Char)) : Option (ℤ × ℤ × ℤ) :=
  match parts with
  | [a, b, c] => do
    let x ← parseIntChars a
    let y ← parseIntChars b
    let z ← parseIntChars c
    some (x, y, z)
  | _ => none

/-- `H, D, Z, *rest = map(float, parts[:3])`: at least three tokens, the
first three parsed as floats. -/
def parseFloat3 (parts : List (List Char)) : Option (ℚ × ℚ × ℚ) :=
  match parts.take 3 with
  | [a, b, c] => do
    let x ← parseRatChars a
    let y ← parseRatChars b
    let z ← parseRatChars c
    some (x, y, z)
  | _ => none

/-! ## Python numeric primitives -/

/-- Python `int(x)`: truncation toward zero. -/
def truncQ (q : ℚ) : ℤ := if 0 ≤ q then ⌊q⌋ else -⌊-q⌋

/-- Bisection step for the integer square root; the invariant is
`lo² ≤ n < hi²`, and the gap `hi - lo` at least halves each step. -/
def isqrtAux (n : ℕ) : ℕ → ℕ → ℕ → ℕ
  | 0, lo, _ => lo
  | f + 1, lo, hi =>
    if hi ≤ lo + 1 then lo
    else
      let m := (lo + hi) / 2
      if m * m ≤ n then isqrtAux n f m hi else isqrtAux n f lo m

/-- Integer square root `⌊√n⌋`, by bisection with explicit fuel (so that
it evaluates by `rfl` inside kernel reduction). -/
def isqrt (n : ℕ) : ℕ := isqrtAux n (n + 1) 0 (n + 1)

/-- `int(math.sqrt(q) * 10)` for `q ≥ 0`, in exact arithmetic:
`⌊√q · 10⌋ = ⌊√(100·q)⌋ = isqrt ⌊100·q⌋`  (proved against `Real.sqrt`
below). -/
def sqrtTimes10Trunc (q : ℚ) : ℤ := (isqrt (⌊q * 100⌋).toNat : ℤ)

/-! ## Python list indexing -/

/-- Effective index of Python `l[i]` / `l[i] = v`: in-range non-negative
indices are used as-is, negative indices wrap around once, anything else
is an `IndexError` (`none`). -/
def pyIndex (len : ℕ) (i : ℤ) : Option ℕ :=
  if 0 ≤ i ∧ i < (len : ℤ) then some i.toNat
  else if -(len : ℤ) ≤ i ∧ i < 0 then some ((len : ℤ) + i).toNat
  else none

/-- Python `l[i]` (read). -/
def pyListGet {α : Type} (l : List α) (i : ℤ) : Except String α :=
  match pyIndex l.length i with
  | some n =>
    match l.get? n with
    | some v => Except.ok v
    | none => Except.error "IndexError"
  | none => Except.error "IndexError"

/-- Python `l[i] = v`, also returning the effective position written
(used to state which array cells a run has touched). -/
def pyListSetIdx (l : List ℤ) (i : ℤ) (v : ℤ) : Option (List ℤ × ℕ) :=
  (pyIndex l.length i).map (fun n => (l.set n v, n))

/-! ## Integer rendering (Python `str` / f-string fields) -/

/-- Decimal digits of `n`, most significant first (fuelled so that it
evaluates by `rfl`). -/
def natCharsAux : ℕ → ℕ → List Char
  | 0, _ => []
  | f + 1, n =>
    if n < 10 then [Char.ofNat (48 + n)]
    else natCharsAux f (n / 10) ++ [Char.ofNat (48 + n % 10)]

/-- Decimal rendering of a natural number. -/
def natChars (n : ℕ) : List Char := natCharsAux (n + 1) n

/-- Python `str(i)` for an integer. -/
def intChars (i : ℤ) : List Char :=
  if i < 0 then '-' :: natChars i.natAbs else natChars i.toNat

/-- An f-string field `{v:w}`: right-justify in a minimum width `w`
(longer renderings are not cut). -/
def rightJustify (w : ℕ) (s : List Char) : List Char :=
  List.replicate (w - s.length) ' ' ++ s

/-- The f-string field `{v:02}`: zero-pad to width 2. -/
def pad2 (i : ℤ) : List Char :=
  let s := intChars i
  if s.length < 2 then '0' :: s else s

/-- Python `str.upper()` (the station names are ASCII). -/
def pyUpper (l : List Char) : List Char := l.map Char.toUpper

/-! ## The line tokenizer — `format_data_line` (source lines 74–80)

`format_data_line` applies two `re.sub` substitutions:

    formatted_line = re.sub(r'(\d+\.\d+)(-?\d+\.\d+)', r'\1 \2', data_line)
    formatted_line = re.sub(r'(\-?\d+\.\d+)(\-?\d+\.\d+)', r'\1 \2', formatted_line)

`matchCore neg1 l0` decides whether the concrete pattern
`(\d+\.\d+)(-?\d+\.\d+)` matches at the start of `neg1 ++ l0` (where
`neg1` is an already-consumed optional leading `-` of the first group),
returning the two captured groups and the remaining suffix.  It encodes
exactly Python's leftmost greedy backtracking on these patterns:

* a `\d+` that is followed by `\.` must take the maximal digit run (a
  shorter run would leave a digit where the dot is required);
* after the first `\d+\.\d+`, the greedy engine first keeps the whole
  second digit run and tries `-\d+\.\d+`, and otherwise backtracks one
  digit and requires `\.\d+` immediately (taking fewer than `n-1` digits
  succeeds under exactly the same conditions, so greediness picks
  `n-1`); the final `\d+` of the match is maximal. -/
def matchCore (neg1 : List Char) (l0 : List Char) : Option (List Char × List Char × List Char) :=
  let d1 := l0.takeWhile isDig
  match l0.dropWhile isDig with
  | [] => none
  | c1 :: r2 =>
    if d1 = [] then none
    else if c1 = '.' then
      let d2 := r2.takeWhile isDig
      match r2.dropWhile isDig with
      | [] => none
      | c2 :: r4 =>
        if d2 = [] then none
        else if c2 = '-' then
          let d3 := r4.takeWhile isDig
          match r4.dropWhile isDig with
          | [] => none
          | c3 :: r6 =>
            if d3 = [] then none
            else if c3 = '.' then
              let d4 := r6.takeWhile isDig
              if d4 = [] then none
              else some (neg1 ++ d1 ++ '.' :: d2, '-' :: (d3 ++ '.' :: d4), r6.dropWhile isDig)
            else none
        else if c2 = '.' then
          if d2.length < 2 then none
          else
            let d4 := r4.takeWhile isDig
            if d4 = [] then none
            else some (neg1 ++ d1 ++ '.' :: d2.dropLast,
                       d2.drop (d2.length - 1) ++ '.' :: d4, r4.dropWhile isDig)
        else none
    else none

/-- Match of one of the two substitution patterns at the start of `l`;
`sign1 = true` for the second pattern `(\-?\d+\.\d+)(\-?\d+\.\d+)`,
whose first group may start with `-`. -/
def matchAt (sign1 : Bool) (l : List Char) : Option (List Char × List Char × List Char) :=
  match l with
  | [] => none
  | c :: t => if sign1 = true ∧ c = '-' then matchCore ['-'] t else matchCore [] (c :: t)

/-- One `re.sub` pass: scan left to right, replace each non-overlapping
match `g1 g2` by `g1 ++ " " ++ g2`, and continue after the match.  The
fuel only bounds the scan (every step consumes at least one character,
so `l.length` fuel always suffices). -/
def subPassAux (sign1 : Bool) : ℕ → List Char → List Char
  | 0, l => l
  | _ + 1, [] => []
  | f + 1, c :: cs =>
    match matchAt sign1 (c :: cs) with
    | some (g1, g2, rest) => g1 ++ ' ' :: (g2 ++ subPassAux sign1 f rest)
    | none => c :: subPassAux sign1 f cs

/-- One full `re.sub` pass over a line. -/
def subPass (sign1 : Bool) (l : List Char) : List Char := subPassAux sign1 l.length l

/-- `format_data_line` (source lines 74–80): the two substitution passes. -/
def format_data_line (line : List Char) : List Char := subPass true (subPass false line)

example : format_data_line "12.345-6.789".toList = "12.345 -6.789".toList := by decide
example : format_data_line "-1.234-5.678".toList = "-1.234 -5.678".toList := by decide
example : format_data_line "-0.24483-2.49756".toList = "-0.24483 -2.49756".toList := by decide
example : format_data_line "1.2 -3.4 5.6".toList = "1.2 -3.4 5.6".toList := by decide
example : splitWs (format_data_line "12.345-6.789".toList) = ["12.345".toList, "-6.789".toList] := by decide

/-! ## Module constants (source lines 11–14) -/

/-- `MONTHS` (source line 11). -/
def MONTHS : List (List Char) :=
  ["JAN".toList, "FEB".toList, "MAR".toList, "APR".toList, "MAY".toList, "JUN".toList,
   "JUL".toList, "AUG".toList, "SEP".toList, "OCT".toList, "NOV".toList, "DEC".toList]

/-- `DAYS_IN_MONTH` (source line 12); index 0 is a dummy entry. -/
def DAYS_IN_MONTH : List ℤ :=
  [0, 31, 28, 31, 30, 31, 30, 31, 31, 30, 31, 30, 31]

/-- `FILEHDR_NORMAL` (source line 13). -/
def FILEHDR_NORMAL : List Char :=
  "HDZF R EDI 12440192 -14161 RRRRRRRRRRRRRRRR".toList

/-- `FILEHDR_DNT` (source line 14). -/
def FILEHDR_DNT : List Char :=
  "HDZF R EDI 12440192 -14161 DRRRRRRRRRRRRRRR".toList

/-! ## `monday` — calendar conversion (source lines 54–61) -/

/-- The leap-year test on source line 56. -/
def isLeap (year : ℤ) : Bool :=
  (year % 4 == 0 && year % 100 != 0) || year % 400 == 0

/-- The month table after line 56 has set the February entry. -/
def mondayTable (year : ℤ) : List ℤ :=
  DAYS_IN_MONTH.set 2 (if isLeap year then 29 else 28)

/-- The `while dayno > DAYS_IN_MONTH[month_idx]` loop of `monday`
(source lines 57–60): walks the month-length list from `month_idx`;
running off the end of the table is Python's `IndexError`. -/
def mondayAux : List ℤ → ℕ → ℤ → Except String (ℕ × ℤ)
  | [], _, _ => Except.error "IndexError"
  | m :: rest, idx, dayno =>
    if dayno > m then mondayAux rest (idx + 1) (dayno - m) else Except.ok (idx, dayno)

/-- `monday(year, dayno)` (source lines 54–61), as a function of its
arguments only (the mutation of the module table is modelled separately
by `monday_stateful`). -/
def monday (year dayno : ℤ) : Except String (ℕ × ℤ) :=
  mondayAux ((mondayTable year).drop 1) 1 dayno

/-- `monday` with the module-level `DAYS_IN_MONTH` list passed and
returned explicitly: line 56 assigns `DAYS_IN_MONTH[2]` in place, so the
mutated table persists after the call. -/
def monday_stateful (table : List ℤ) (year dayno : ℤ) :
    Except String (ℕ × ℤ) × List ℤ :=
  let table2 := table.set 2 (if isLeap year then 29 else 28)
  (mondayAux (table2.drop 1) 1 dayno, table2)

example : monday 2000 60 = Except.ok (2, 29) := by decide
example : monday 1900 60 = Except.ok (3, 1) := by decide
example : monday 2024 1 = Except.ok (1, 1) := by decide

/-! ## The per-sample record conversion

`convert_sample_day` mirrors the arithmetic of `read_convert_raw`,
source lines 101–108; `convert_sample_block` mirrors
`process_and_save_12_min_block`, source lines 224–234.  In both, when
`d_nt == 0` the expression `(scale_factor * 3438.0) / Htmp` raises
`ZeroDivisionError` if `Htmp == 0` (Python raises on float division by
zero); `int(Ftmp * 10) if Htmp and Ztmp else 999999` uses float
truthiness, i.e. the sentinel is chosen iff `Htmp == 0 or Ztmp == 0`. -/

/-- The whole-day path's conversion of one raw sample (lines 101–108). -/
def convert_sample_day (scale H0 D0 Z0 : ℚ) (d_nt : ℤ) (Hraw Draw Zraw : ℚ) :
    Except String (ℤ × ℤ × ℤ × ℤ) :=
  let Htmp := Hraw * scale + H0
  let vH := truncQ (Htmp * 10)
  if d_nt = 0 ∧ Htmp = 0 then Except.error "ZeroDivisionError"
  else
    let Dscale := if d_nt = 0 then scale * 3438 / Htmp else scale
    let vD := truncQ ((Draw * Dscale + D0) * (if d_nt ≠ 0 then 10 else 100))
    let Ztmp := Zraw * (-scale) + Z0
    let vZ := truncQ (Ztmp * 10)
    let vF := if Htmp ≠ 0 ∧ Ztmp ≠ 0 then sqrtTimes10Trunc (Htmp ^ 2 + Ztmp ^ 2) else 999999
    Except.ok (vH, vD, vZ, vF)

/-- The block path's conversion of one raw sample (lines 224–234); the
square root `Ftmp` is computed before the truthiness test, but is only
used when `Htmp` and `Ztmp` are both nonzero. -/
def convert_sample_block (scale H0 D0 Z0 : ℚ) (d_nt : ℤ) (Hraw Draw Zraw : ℚ) :
    Except String (ℤ × ℤ × ℤ × ℤ) :=
  let Htmp := Hraw * scale + H0
  if d_nt = 0 ∧ Htmp = 0 then Except.error "ZeroDivisionError"
  else
    let Dscale := if d_nt = 0 then scale * 3438 / Htmp else scale
    let Dtmp := Draw * Dscale + D0
    let Ztmp := Zraw * (-scale) + Z0
    let vF := if Htmp ≠ 0 ∧ Ztmp ≠ 0 then sqrtTimes10Trunc (Htmp ^ 2 + Ztmp ^ 2) else 999999
    Except.ok (truncQ (Htmp * 10), truncQ (Dtmp * (if d_nt ≠ 0 then 10 else 100)),
               truncQ (Ztmp * 10), vF)

/-! ## `ProgOptions` (source lines 16–31) -/

/-- The mutable options container `ProgOptions`.  The `filename` and
`baseline_fpath` fields are file-system paths consumed by I/O and are
not part of the embedding. -/
structure ProgOptions where
  stationname : List Char
  imfv_header : List Char
  start_minute : ℤ
  stop_minute : ℤ
  d_nt : ℤ
  scale_factor : ℚ
  lH : List ℤ
  lD : List ℤ
  lZ : List ℤ
  lF : List ℤ
  H0 : ℚ
  D0 : ℚ
  Z0 : ℚ
  year : ℤ
  dayno : ℤ
  nr_minutes : ℕ
deriving DecidableEq

/-! ## `read_convert_raw` — the whole-day series builder (lines 82–111) -/

/-- Processing of one line of the raw file by the loop body of
`read_convert_raw` (source lines 93–109).  The third component of a
successful result lists the effective array positions assigned by the
line (empty for a header line; the four `opt.lX[index] = ...`
assignments for a data line) — this instrumentation only records what
the Python assignments already do, and is used to state which cells a
run has written.  The assignments and the `Dscale` division are
performed in source order, so a data line fails (as in Python) if
`index` is out of range or, when `d_nt == 0`, if `Htmp == 0`. -/
def rcr_step (opt : ProgOptions) (index : ℤ) (line : List Char) :
    Except String (ProgOptions × ℤ × List ℕ) :=
  let line := pyStrip line
  if line.length ≤ 15 then
    match parseInt3 (splitWs line) with
    | some (y, d, i) => Except.ok ({ opt with year := y, dayno := d }, i, [])
    | none => Except.error "ValueError"
  else
    match parseFloat3 (splitWs (format_data_line line)) with
    | none => Except.error "ValueError"
    | some (Hraw, Draw, Zraw) =>
      let Hscale := opt.scale_factor
      let Zscale := -opt.scale_factor
      let Htmp := Hraw * Hscale + opt.H0
      match pyListSetIdx opt.lH index (truncQ (Htmp * 10)) with
      | none => Except.error "IndexError"
      | some (lH2, e1) =>
        if opt.d_nt = 0 ∧ Htmp = 0 then Except.error "ZeroDivisionError"
        else
          let Dscale := if opt.d_nt = 0 then opt.scale_factor * 3438 / Htmp else opt.scale_factor
          match pyListSetIdx opt.lD index (truncQ ((Draw * Dscale + opt.D0) * (if opt.d_nt ≠ 0 then 10 else 100))) with
          | none => Except.error "IndexError"
          | some (lD2, e2) =>
            let Ztmp := Zraw * Zscale + opt.Z0
            match pyListSetIdx opt.lZ index (truncQ (Ztmp * 10)) with
            | none => Except.error "IndexError"
            | some (lZ2, e3) =>
              match pyListSetIdx opt.lF index (if Htmp ≠ 0 ∧ Ztmp ≠ 0 then sqrtTimes10Trunc (Htmp ^ 2 + Ztmp ^ 2) else 999999) with
              | none => Except.error "IndexError"
              | some (lF2, e4) =>
                Except.ok ({ opt with lH := lH2, lD := lD2, lZ := lZ2, lF := lF2 },
                           index + 1, [e1, e2, e3, e4])

/-- The `for line in f` loop of `read_convert_raw`, threading the
options, the cursor `index`, and the accumulated list of written
positions. -/
def rcr_loop (opt : ProgOptions) (index : ℤ) : List (List Char) →
    Except String (ProgOptions × ℤ × List ℕ)
  | [] => Except.ok (opt, index, [])
  | line :: rest =>
    match rcr_step opt index line with
    | Except.error e => Except.error e
    | Except.ok (opt2, index2, ws) =>
      match rcr_loop opt2 index2 rest with
      | Except.error e => Except.error e
      | Except.ok (opt3, index3, ws2) => Except.ok (opt3, index3, ws ++ ws2)

/-- The array preallocation of source lines 85–88. -/
def rcr_init (opt : ProgOptions) : ProgOptions :=
  { opt with
    lH := List.replicate opt.nr_minutes 0
    lD := List.replicate opt.nr_minutes 0
    lZ := List.replicate opt.nr_minutes 0
    lF := List.replicate opt.nr_minutes 0 }

/-- `read_convert_raw` (source lines 82–111) on the raw file's lines;
any exception in the loop is fatal (`sys.exit` of line 111). -/
def read_convert_raw (opt : ProgOptions) (lines : List (List Char)) :
    Except String ProgOptions :=
  match rcr_loop (rcr_init opt) 0 lines with
  | Except.error e => Except.error e
  | Except.ok (opt2, _, _) => Except.ok opt2

/-! ## `dump_data` — the output serializer (lines 113–126)

The embedding returns the text written to the output file.  The output
path construction and `os.makedirs` on lines 116–117 are file-system
operations outside the embedding. -/

/-- The header line written on lines 119–122.  Note: `{dom:02}` is
zero-padded to two characters, but `{opt.year % 100}` is rendered
without padding. -/
def dump_header (opt : ProgOptions) : Except String (List Char) :=
  match monday opt.year opt.dayno with
  | Except.error e => Except.error e
  | Except.ok (mnth, dom) =>
    match pyListGet MONTHS ((mnth : ℤ) - 1) with
    | Except.error e => Except.error e
    | Except.ok mon =>
      Except.ok (pyUpper opt.stationname ++ ' ' ::
        (mon ++ pad2 dom ++ intChars (opt.year % 100)) ++ ' ' ::
        intChars opt.dayno ++ ' ' :: intChars opt.start_minute ++ ' ' ::
        opt.imfv_header ++ ['\n'])

/-- `range(start, stop + 1, 2)` (line 123). -/
def range2 (start stop : ℤ) : List ℤ :=
  if start ≤ stop then
    (List.range ((stop - start).toNat / 2 + 1)).map (fun k : ℕ => start + 2 * (k : ℤ))
  else []

/-- One quadruple `f"{opt.lH[i]:7} {opt.lD[i]:7} {opt.lZ[i]:7} {opt.lF[i]:6}"`
(lines 124 and 126). -/
def quadFields (opt : ProgOptions) (i : ℤ) : Except String (List Char) :=
  match pyListGet opt.lH i with
  | Except.error e => Except.error e
  | Except.ok h =>
    match pyListGet opt.lD i with
    | Except.error e => Except.error e
    | Except.ok d =>
      match pyListGet opt.lZ i with
      | Except.error e => Except.error e
      | Except.ok z =>
        match pyListGet opt.lF i with
        | Except.error e => Except.error e
        | Except.ok f =>
          Except.ok (rightJustify 7 (intChars h) ++ ' ' :: rightJustify 7 (intChars d) ++
                     ' ' :: rightJustify 7 (intChars z) ++ ' ' :: rightJustify 6 (intChars f))

/-- The body loop of `dump_data` (lines 123–126): for each `i` in the
range, the first quadruple; then, if `i + 1 <= stop_minute`, two spaces,
the second quadruple and a newline (the odd final half-line gets neither
trailing fields nor a newline). -/
def dumpBodyAux (opt : ProgOptions) : List ℤ → Except String (List Char)
  | [] => Except.ok []
  | i :: rest =>
    match quadFields opt i with
    | Except.error e => Except.error e
    | Except.ok q1 =>
      match (if i + 1 ≤ opt.stop_minute then
               match quadFields opt (i + 1) with
               | Except.error e => Except.error e
               | Except.ok q2 => Except.ok (' ' :: ' ' :: (q2 ++ ['\n']))
             else Except.ok []) with
      | Except.error e => Except.error e
      | Except.ok mid =>
        match dumpBodyAux opt rest with
        | Except.error e => Except.error e
        | Except.ok tl => Except.ok (q1 ++ mid ++ tl)

/-- `dump_data` (lines 113–126): the complete text written to the
output file. -/
def dump_data (opt : ProgOptions) : Except String (List Char) :=
  match dump_header opt with
  | Except.error e => Except.error e
  | Except.ok hdr =>
    match dumpBodyAux opt (range2 opt.start_minute opt.stop_minute) with
    | Except.error e => Except.error e
    | Except.ok body => Except.ok (hdr ++ body)

/-! ## `run_conversion` — the whole-day entry point (lines 128–154) -/

/-- The options record built on source lines 140–149.  `read_baselines`
(lines 63–72) only reads the baseline file; its result is the triple
(H0, D0, Z0) taken here as input. -/
def run_options (stationname : List Char) (H0 D0 Z0 : ℚ)
    (start_minute stop_minute : ℤ) (d_unit : ℤ) (scale_factor : ℚ) : ProgOptions :=
  { stationname := stationname
    imfv_header := if d_unit = 0 then FILEHDR_NORMAL else FILEHDR_DNT
    start_minute := start_minute
    stop_minute := stop_minute
    d_nt := d_unit
    scale_factor := scale_factor
    lH := [], lD := [], lZ := [], lF := []
    H0 := H0, D0 := D0, Z0 := Z0
    year := 0, dayno := 0
    nr_minutes := (stop_minute - start_minute + 1).toNat }

/-- `run_conversion` (lines 128–154): builds the options, converts the
raw lines, and returns the output file's text; a fatal error anywhere
aborts the run before `dump_data` opens the output file, so no output
text exists. -/
def run_conversion (stationname : List Char) (H0 D0 Z0 : ℚ)
    (start_minute stop_minute : ℤ) (d_unit : ℤ) (scale_factor : ℚ)
    (lines : List (List Char)) : Except String (List Char) :=
  match read_convert_raw (run_options stationname H0 D0 Z0 start_minute stop_minute d_unit scale_factor) lines with
  | Except.error e => Except.error e
  | Except.ok opt => dump_data opt

/-! ## `extract_12_min_block` (lines 156–197) -/

/-- Python `str.isdigit()`: nonempty and all digits. -/
def pyIsdigit (s : List Char) : Bool := !s.isEmpty && s.all isDig

/-- The header test on source line 174: exactly three whitespace
tokens, all of them digit strings. -/
def ex_isHeader (line : List Char) : Bool :=
  (splitWs line).length = 3 && (splitWs line).all pyIsdigit

/-- `int(header.split()[2])` (line 176); the header test guarantees the
token is a nonempty digit string, so parsing cannot fail. -/
def ex_headerMinute (line : List Char) : ℤ :=
  ((parseIntChars ((splitWs line).getD 2 [])).getD 0)

/-- The scanning loop of `extract_12_min_block` (lines 170–191):
header lines re-synchronise the counter; data lines are skipped while
`current_minute < start_minute` (incrementing the counter), then
collected; the loop breaks as soon as `block_size` lines are
collected. -/
def ex_loop (start_minute : ℤ) (block_size : ℕ) :
    List (List Char) → Option (List Char) → List (List Char) → ℤ →
    Option (List Char) × List (List Char)
  | [], h, b, _ => (h, b)
  | l :: rest, h, b, cur =>
    let l := pyStrip l
    if ex_isHeader l then ex_loop start_minute block_size rest (some l) b (ex_headerMinute l)
    else if cur < start_minute then ex_loop start_minute block_size rest h b (cur + 1)
    else
      let b2 := if b.length < block_size then b ++ [l] else b
      let cur2 := if b.length < block_size then cur + 1 else cur
      if b2.length = block_size then (h, b2)
      else ex_loop start_minute block_size rest h b2 cur2

/-- `extract_12_min_block` (lines 156–197): the final length check
raises `ValueError` — the recoverable `InsufficientDataError` of the
specification, which callers catch (source lines 265–269). -/
def extract_12_min_block (lines : List (List Char)) (start_minute : ℤ)
    (block_size : ℕ) : Except String (Option (List Char) × List (List Char)) :=
  let hb := ex_loop start_minute block_size lines none [] 0
  if hb.2.length < block_size then Except.error "Insufficient data"
  else Except.ok hb


/-! ## Correctness of the executable integer square root -/

theorem isqrtAux_spec (n : ℕ) :
    ∀ (f lo hi : ℕ), lo * lo ≤ n → n < hi * hi → hi ≤ lo + f + 1 →
      isqrtAux n f lo hi * isqrtAux n f lo hi ≤ n ∧
        n < (isqrtAux n f lo hi + 1) * (isqrtAux n f lo hi + 1) := by
  intro f
  induction f with
  | zero =>
    intro lo hi hlo hhi hgap
    simp only [isqrtAux]
    exact ⟨hlo, lt_of_lt_of_le hhi (Nat.mul_le_mul (by omega) (by omega))⟩
  | succ f ih =>
    intro lo hi hlo hhi hgap
    simp only [isqrtAux]
    by_cases hle : hi ≤ lo + 1
    · rw [if_pos hle]
      exact ⟨hlo, lt_of_lt_of_le hhi (Nat.mul_le_mul (by omega) (by omega))⟩
    · rw [if_neg hle]
      have hdm := Nat.div_add_mod (lo + hi) 2
      have hmod : (lo + hi) % 2 < 2 := Nat.mod_lt _ (by norm_num)
      have hm1 : lo + 1 ≤ (lo + hi) / 2 := by omega
      have hm2 : (lo + hi) / 2 + 1 ≤ hi := by omega
      by_cases hsq : ((lo + hi) / 2) * ((lo + hi) / 2) ≤ n
      · rw [if_pos hsq]
        exact ih ((lo + hi) / 2) hi hsq hhi (by omega)
      · rw [if_neg hsq]
        exact ih lo ((lo + hi) / 2) hlo (by omega) (by omega)

theorem isqrt_spec (n : ℕ) :
    isqrt n * isqrt n ≤ n ∧ n < (isqrt n + 1) * (isqrt n + 1) := by
  have h : n < (n + 1) * (n + 1) := by nlinarith
  exact isqrtAux_spec n (n + 1) 0 (n + 1) (by omega) h (by omega)

theorem floor_sqrt_eq_isqrt (x : ℝ) (hx : 0 ≤ x) :
    ⌊Real.sqrt x⌋ = (isqrt (⌊x⌋.toNat) : ℤ) := by
  obtain ⟨h1, h2⟩ := isqrt_spec ⌊x⌋.toNat
  have hfl : (0 : ℤ) ≤ ⌊x⌋ := Int.floor_nonneg.mpr hx
  have hcast : ((⌊x⌋.toNat : ℤ) : ℝ) = ((⌊x⌋ : ℤ) : ℝ) := by
    rw [Int.toNat_of_nonneg hfl]
  have hle : ((⌊x⌋.toNat : ℕ) : ℝ) ≤ x := by
    calc ((⌊x⌋.toNat : ℕ) : ℝ) = ((⌊x⌋ : ℤ) : ℝ) := by exact_mod_cast hcast
    _ ≤ x := Int.floor_le x
  have hlt : x < ((⌊x⌋.toNat : ℕ) : ℝ) + 1 := by
    calc x < ((⌊x⌋ : ℤ) : ℝ) + 1 := Int.lt_floor_add_one x
    _ = ((⌊x⌋.toNat : ℕ) : ℝ) + 1 := by exact_mod_cast congrArg (fun t => t + (1 : ℝ)) hcast.symm
  rw [Int.floor_eq_iff]
  constructor
  · have : ((isqrt ⌊x⌋.toNat : ℕ) : ℝ) ≤ Real.sqrt x := by
      rw [Real.le_sqrt (by positivity) hx]
      calc ((isqrt ⌊x⌋.toNat : ℕ) : ℝ) ^ 2
          = ((isqrt ⌊x⌋.toNat * isqrt ⌊x⌋.toNat : ℕ) : ℝ) := by push_cast; ring
      _ ≤ ((⌊x⌋.toNat : ℕ) : ℝ) := by exact_mod_cast h1
      _ ≤ x := hle
    exact_mod_cast this
  · have hsucc : (⌊x⌋.toNat : ℕ) + 1 ≤ (isqrt ⌊x⌋.toNat + 1) * (isqrt ⌊x⌋.toNat + 1) :=
      Nat.succ_le_of_lt h2
    have hxlt : x < (((isqrt ⌊x⌋.toNat + 1) : ℕ) : ℝ) ^ 2 := by
      calc x < ((⌊x⌋.toNat : ℕ) : ℝ) + 1 := hlt
      _ = (((⌊x⌋.toNat + 1 : ℕ)) : ℝ) := by push_cast; ring
      _ ≤ (((isqrt ⌊x⌋.toNat + 1) * (isqrt ⌊x⌋.toNat + 1) : ℕ) : ℝ) := by exact_mod_cast hsucc
      _ = (((isqrt ⌊x⌋.toNat + 1) : ℕ) : ℝ) ^ 2 := by push_cast; ring
    have := (Real.sqrt_lt' (y := (((isqrt ⌊x⌋.toNat + 1) : ℕ) : ℝ)) (by positivity)).mpr hxlt
    calc Real.sqrt x < (((isqrt ⌊x⌋.toNat + 1) : ℕ) : ℝ) := this
    _ = ((isqrt ⌊x⌋.toNat : ℤ) : ℝ) + 1 := by push_cast; ring

theorem sqrtTimes10Trunc_eq (q : ℚ) (hq : 0 ≤ q) :
    sqrtTimes10Trunc q = ⌊Real.sqrt (q : ℝ) * 10⌋ := by
  have h100 : Real.sqrt ((q : ℝ) * 100) = Real.sqrt (q : ℝ) * 10 := by
    rw [show (100 : ℝ) = 10 ^ 2 by norm_num, Real.sqrt_mul (by exact_mod_cast hq),
      Real.sqrt_sq (by norm_num : (0 : ℝ) ≤ 10)]
  have hfloor : ⌊((q * 100 : ℚ) : ℝ)⌋ = ⌊(q * 100 : ℚ)⌋ := Rat.floor_cast _
  rw [← h100, floor_sqrt_eq_isqrt _ (by positivity)]
  unfold sqrtTimes10Trunc
  congr 2
  rw [show ((q : ℝ) * 100) = ((q * 100 : ℚ) : ℝ) by push_cast; ring, hfloor]

/-! ## Shared helper lemmas -/

theorem pyListGet_ok {α : Type} (l : List α) (i : ℤ) (d : α)
    (h0 : 0 ≤ i) (h1 : i < l.length) :
    pyListGet l i = Except.ok (l.getD i.toNat d) := by
  unfold pyListGet pyIndex
  rw [if_pos ⟨h0, h1⟩]
  have hn : i.toNat < l.length := by omega
  have hg : l.get? i.toNat = some (l.getD i.toNat d) := by
    rw [List.get?_eq_getElem?, List.getElem?_eq_getElem hn, List.getD_eq_getElem l d hn]
  show (match l.get? i.toNat with
    | some v => Except.ok v
    | none => Except.error "IndexError") = Except.ok (l.getD i.toNat d)
  rw [hg]

theorem convert_block_eq_day (scale H0 D0 Z0 : ℚ) (d_nt : ℤ) (Hraw Draw Zraw : ℚ) :
    convert_sample_block scale H0 D0 Z0 d_nt Hraw Draw Zraw =
      convert_sample_day scale H0 D0 Z0 d_nt Hraw Draw Zraw := by
  unfold convert_sample_block convert_sample_day
  by_cases h : d_nt = 0 ∧ Hraw * scale + H0 = 0
  · rw [if_pos h]
  · rw [if_neg h]

/-! ## Claim C9 — calendar conversion -/

theorem mondayAux_spec :
    ∀ (L : List ℤ) (idx : ℕ) (dayno : ℤ), 0 < dayno → dayno ≤ L.sum →
      ∃ k d, mondayAux L idx dayno = Except.ok (idx + k, d) ∧ k < L.length ∧
        1 ≤ d ∧ d ≤ L.getD k 0 ∧ (L.take k).sum + d = dayno := by
  intro L
  induction L with
  | nil =>
    intro idx dayno h1 h2
    simp only [List.sum_nil] at h2
    omega
  | cons m rest ih =>
    intro idx dayno h1 h2
    by_cases hgt : dayno > m
    · have hrest : dayno - m ≤ rest.sum := by
        simp only [List.sum_cons] at h2; omega
      obtain ⟨k, d, hok, hk, hd1, hd2, hsum⟩ := ih (idx + 1) (dayno - m) (by omega) hrest
      refine ⟨k + 1, d, ?_, ?_, hd1, ?_, ?_⟩
      · rw [show mondayAux (m :: rest) idx dayno = mondayAux rest (idx + 1) (dayno - m) by
          simp [mondayAux, hgt]]
        rw [hok]
        congr 2
        omega
      · simp only [List.length_cons]; omega
      · simpa using hd2
      · simp only [List.take_succ_cons, List.sum_cons]; omega
    · refine ⟨0, dayno, ?_, ?_, by omega, ?_, ?_⟩
      · simp [mondayAux, hgt]
      · simp only [List.length_cons]; omega
      · simpa using not_lt.mp hgt
      · simp

/-- C9: for every year and every day-of-year between 1 and the length of
that year, `monday` returns the (month, day-of-month) pair obtained by
subtracting month lengths sequentially from January, with February
having 29 days exactly when the year is divisible by 4 and not by 100,
or divisible by 400 (`isLeap`); in particular (2000, 60) → (2, 29),
(1900, 60) → (3, 1) and (2024, 1) → (1, 1). -/
theorem C9_monday_characterisation (year dayno : ℤ)
    (h1 : 1 ≤ dayno) (h2 : dayno ≤ (if isLeap year then 366 else 365)) :
    (∃ m d, monday year dayno = Except.ok (m, d) ∧ 1 ≤ m ∧ m ≤ 12 ∧ 1 ≤ d ∧
        d ≤ ((mondayTable year).drop 1).getD (m - 1) 0 ∧
        (((mondayTable year).drop 1).take (m - 1)).sum + d = dayno) ∧
    ((mondayTable year).drop 1).getD 1 0 = (if isLeap year then 29 else 28) ∧
    monday 2000 60 = Except.ok (2, 29) ∧
    monday 1900 60 = Except.ok (3, 1) ∧
    monday 2024 1 = Except.ok (1, 1) := by
  have hsum : ((mondayTable year).drop 1).sum = (if isLeap year then 366 else 365) := by
    cases h : isLeap year <;> simp [mondayTable, DAYS_IN_MONTH, h]
  have hlen : ((mondayTable year).drop 1).length = 12 := by
    cases h : isLeap year <;> simp [mondayTable, DAYS_IN_MONTH, h]
  obtain ⟨k, d, hok, hk, hd1, hd2, hsum2⟩ :=
    mondayAux_spec ((mondayTable year).drop 1) 1 dayno (by omega) (by rw [hsum]; exact h2)
  refine ⟨⟨1 + k, d, hok, by omega, by omega, hd1, ?_, ?_⟩, ?_, by decide, by decide, by decide⟩
  · rw [show 1 + k - 1 = k by omega]; exact hd2
  · rw [show 1 + k - 1 = k by omega]; exact hsum2
  · cases h : isLeap year <;> simp [mondayTable, DAYS_IN_MONTH, h]

theorem C9_monday_characterisation_witness :
    ((1 : ℤ) ≤ 60 ∧ (60 : ℤ) ≤ (if isLeap 2000 then 366 else 365)) ∧
    ((∃ m d, monday 2000 60 = Except.ok (m, d) ∧ 1 ≤ m ∧ m ≤ 12 ∧ 1 ≤ d ∧
        d ≤ ((mondayTable 2000).drop 1).getD (m - 1) 0 ∧
        (((mondayTable 2000).drop 1).take (m - 1)).sum + d = 60) ∧
      ((mondayTable 2000).drop 1).getD 1 0 = (if isLeap 2000 then 29 else 28) ∧
      monday 2000 60 = Except.ok (2, 29) ∧
      monday 1900 60 = Except.ok (3, 1) ∧
      monday 2024 1 = Except.ok (1, 1)) :=
  ⟨⟨by decide, by decide⟩, C9_monday_characterisation 2000 60 (by decide) (by decide)⟩

/-! ## Claim C10 — `monday` and the module-level month table -/

/-- C10 counterexample: the claim says calling `monday` leaves the
module-level month-length table unchanged; but `monday(2000, 60)`
assigns `DAYS_IN_MONTH[2] = 29` (source line 56), so the table after the
call differs from the module constant. -/
theorem C10_counterexample :
    (monday_stateful DAYS_IN_MONTH 2000 60).2 ≠ DAYS_IN_MONTH := by decide

/-- C10 (amended): the return value of `monday` is a pure function of
(year, day-of-year) — in particular it does not depend on the February
entry left in the table by an earlier call, because line 56 overwrites
that entry before the loop reads it — but the call does mutate the
module-level table: afterwards the table equals
`DAYS_IN_MONTH.set 2 (29 or 28 by the leap rule)`, and this mutation
persists after the call returns. -/
theorem C10_monday_state (year dayno : ℤ) :
    (monday_stateful DAYS_IN_MONTH year dayno).1 = monday year dayno ∧
    (monday_stateful DAYS_IN_MONTH year dayno).2 =
      DAYS_IN_MONTH.set 2 (if isLeap year then 29 else 28) ∧
    (∀ x : ℤ, monday_stateful (DAYS_IN_MONTH.set 2 x) year dayno =
      monday_stateful DAYS_IN_MONTH year dayno) := by
  refine ⟨rfl, rfl, fun x => ?_⟩
  simp [monday_stateful, List.set_set]

/-! ## Claim C1 — the record conversion formulas, both paths -/

/-- C1: for every raw sample, scale factor, baseline and `d_unit` flag
(with `Htmp ≠ 0` when `d_unit = 0`, the case in which the conversion
raises instead — see C3), the conversion outputs
`H_out = trunc(Htmp·10)` and `Z_out = trunc(Ztmp·10)` with
`Htmp = H_raw·s + H0`, `Ztmp = Z_raw·(−s) + Z0`; for `d_unit = 0` it
outputs `D_out = trunc((D_raw·(s·3438/Htmp) + D0)·100)` and for
`d_unit = 1` it outputs `D_out = trunc((D_raw·s + D0)·10)`, where
`truncQ` truncates toward zero; and the whole-day path and the block
path produce the same four values on the same inputs. -/
theorem C1_record_conversion (scale H0 D0 Z0 : ℚ) (d_nt : ℤ) (Hraw Draw Zraw : ℚ)
    (hH : d_nt = 0 → Hraw * scale + H0 ≠ 0) :
    (∃ vF, convert_sample_day scale H0 D0 Z0 d_nt Hraw Draw Zraw =
        Except.ok (truncQ ((Hraw * scale + H0) * 10),
          (if d_nt = 0
           then truncQ ((Draw * (scale * 3438 / (Hraw * scale + H0)) + D0) * 100)
           else truncQ ((Draw * scale + D0) * 10)),
          truncQ ((Zraw * (-scale) + Z0) * 10), vF)) ∧
    convert_sample_block scale H0 D0 Z0 d_nt Hraw Draw Zraw =
      convert_sample_day scale H0 D0 Z0 d_nt Hraw Draw Zraw := by
  have hcond : ¬(d_nt = 0 ∧ Hraw * scale + H0 = 0) := by
    rintro ⟨ha, hb⟩; exact hH ha hb
  constructor
  · refine ⟨if Hraw * scale + H0 ≠ 0 ∧ Zraw * (-scale) + Z0 ≠ 0 then
        sqrtTimes10Trunc ((Hraw * scale + H0) ^ 2 + (Zraw * (-scale) + Z0) ^ 2)
      else 999999, ?_⟩
    unfold convert_sample_day
    rw [if_neg hcond]
    by_cases h0 : d_nt = 0
    · simp [h0]
    · simp [h0]
  · exact convert_block_eq_day scale H0 D0 Z0 d_nt Hraw Draw Zraw

theorem C1_record_conversion_witness :
    (∃ vF, convert_sample_day 1 0 0 0 1 1 1 1 =
        Except.ok (truncQ (((1 : ℚ) * 1 + 0) * 10),
          (if (1 : ℤ) = 0
           then truncQ (((1 : ℚ) * (1 * 3438 / (1 * 1 + 0)) + 0) * 100)
           else truncQ (((1 : ℚ) * 1 + 0) * 10)),
          truncQ (((1 : ℚ) * (-1) + 0) * 10), vF)) ∧
    convert_sample_block 1 0 0 0 1 1 1 1 = convert_sample_day 1 0 0 0 1 1 1 1 :=
  C1_record_conversion 1 0 0 0 1 1 1 1 (fun h => absurd h (by decide))

/-! ## Claim C2 — the total-field output and the 999999 sentinel -/

theorem convert_sample_day_eq (scale H0 D0 Z0 : ℚ) (d_nt : ℤ) (Hraw Draw Zraw : ℚ)
    (h : ¬(d_nt = 0 ∧ Hraw * scale + H0 = 0)) :
    convert_sample_day scale H0 D0 Z0 d_nt Hraw Draw Zraw =
      Except.ok (truncQ ((Hraw * scale + H0) * 10),
        truncQ ((Draw * (if d_nt = 0 then scale * 3438 / (Hraw * scale + H0) else scale) + D0) *
          (if d_nt ≠ 0 then 10 else 100)),
        truncQ ((Zraw * (-scale) + Z0) * 10),
        if Hraw * scale + H0 ≠ 0 ∧ Zraw * (-scale) + Z0 ≠ 0 then
          sqrtTimes10Trunc ((Hraw * scale + H0) ^ 2 + (Zraw * (-scale) + Z0) ^ 2)
        else 999999) := by
  unfold convert_sample_day
  rw [if_neg h]

/-- C2 counterexample: the claim states `F_out = 999999` *iff*
`Htmp = 0` or `Ztmp = 0`.  The forward direction fails on the code: for
`Htmp = 99999.95` and `Ztmp = 0.1` (both nonzero) the genuine value
`trunc(sqrt(Htmp² + Ztmp²)·10)` is itself `999999`, identical to the
missing-data sentinel. -/
theorem C2_counterexample :
    convert_sample_day 1 0 0 0 1 (1999999 / 20) 0 (-1 / 10) =
      Except.ok (999999, 0, 1, 999999) ∧
    ¬(((1999999 : ℚ) / 20) * 1 + 0 = 0 ∨ ((-1 : ℚ) / 10) * (-1) + 0 = 0) := by
  constructor
  · rw [convert_sample_day_eq 1 0 0 0 1 (1999999 / 20) 0 (-1 / 10) (by norm_num)]
    simp only [Except.ok.injEq, Prod.mk.injEq]
    refine ⟨by norm_num [truncQ], by norm_num [truncQ], by norm_num [truncQ], ?_⟩
    rw [if_pos ⟨by norm_num, by norm_num⟩]
    have harg : ((1999999 : ℚ) / 20 * 1 + 0) ^ 2 + ((-1 : ℚ) / 10 * -(1 : ℚ) + 0) ^ 2 =
        3999996000005 / 400 := by norm_num
    rw [harg]
    unfold sqrtTimes10Trunc
    rw [show ⌊((3999996000005 : ℚ) / 400) * 100⌋ = 999999000001 from by norm_num]
    rw [show ((999999000001 : ℤ)).toNat = 999999000001 from rfl]
    rw [show isqrt 999999000001 = 999999 from rfl]
    norm_num
  · norm_num

/-- C2 (amended): for every converted sample, if `Htmp = 0` or
`Ztmp = 0` then `F_out` is the sentinel `999999`; otherwise
`F_out = trunc(sqrt(Htmp² + Ztmp²)·10)` (which, being non-negative,
equals the floor) — a value that can itself equal `999999` when the
total field lies in `[99999.9, 100000)` nT, so `F_out = 999999` does not
imply a missing sample.  The block path computes the same result. -/
theorem C2_total_field (scale H0 D0 Z0 : ℚ) (d_nt : ℤ) (Hraw Draw Zraw : ℚ)
    (q : ℤ × ℤ × ℤ × ℤ)
    (hq : convert_sample_day scale H0 D0 Z0 d_nt Hraw Draw Zraw = Except.ok q) :
    ((Hraw * scale + H0 = 0 ∨ Zraw * (-scale) + Z0 = 0) → q.2.2.2 = 999999) ∧
    (Hraw * scale + H0 ≠ 0 → Zraw * (-scale) + Z0 ≠ 0 →
      q.2.2.2 = ⌊Real.sqrt (((Hraw * scale + H0 : ℚ) : ℝ) ^ 2 +
        ((Zraw * (-scale) + Z0 : ℚ) : ℝ) ^ 2) * 10⌋) ∧
    convert_sample_block scale H0 D0 Z0 d_nt Hraw Draw Zraw = Except.ok q := by
  have hc : ¬(d_nt = 0 ∧ Hraw * scale + H0 = 0) := by
    intro hcc
    rw [convert_sample_day] at hq
    rw [if_pos hcc] at hq
    exact absurd hq (by simp)
  rw [convert_sample_day_eq scale H0 D0 Z0 d_nt Hraw Draw Zraw hc] at hq
  simp only [Except.ok.injEq] at hq
  refine ⟨?_, ?_, ?_⟩
  · intro hzero
    rw [← hq]
    have hcond2 : ¬(Hraw * scale + H0 ≠ 0 ∧ Zraw * (-scale) + Z0 ≠ 0) := by tauto
    rw [if_neg hcond2]
  · intro hH hZ
    rw [← hq]
    show (if Hraw * scale + H0 ≠ 0 ∧ Zraw * (-scale) + Z0 ≠ 0 then
      sqrtTimes10Trunc ((Hraw * scale + H0) ^ 2 + (Zraw * (-scale) + Z0) ^ 2)
      else 999999) = _
    rw [if_pos ⟨hH, hZ⟩]
    rw [sqrtTimes10Trunc_eq _ (by positivity)]
    have hcast : (((Hraw * scale + H0) ^ 2 + (Zraw * (-scale) + Z0) ^ 2 : ℚ) : ℝ) =
        ((Hraw * scale + H0 : ℚ) : ℝ) ^ 2 + ((Zraw * (-scale) + Z0 : ℚ) : ℝ) ^ 2 := by
      push_cast
      ring
    rw [hcast]
  · rw [convert_block_eq_day]
    rw [convert_sample_day_eq scale H0 D0 Z0 d_nt Hraw Draw Zraw hc]
    rw [hq]

theorem C2_total_field_witness :
    convert_sample_day 1 1 0 0 1 0 0 (-2) = Except.ok (10, 0, 20, 22) ∧
    ((((0 : ℚ) * 1 + 1 = 0 ∨ (-2 : ℚ) * (-1) + 0 = 0) →
        ((10 : ℤ), (0 : ℤ), (20 : ℤ), (22 : ℤ)).2.2.2 = 999999) ∧
     ((0 : ℚ) * 1 + 1 ≠ 0 → (-2 : ℚ) * (-1) + 0 ≠ 0 →
       ((10 : ℤ), (0 : ℤ), (20 : ℤ), (22 : ℤ)).2.2.2 =
         ⌊Real.sqrt ((((0 : ℚ) * 1 + 1 : ℚ) : ℝ) ^ 2 + (((-2 : ℚ) * (-1) + 0 : ℚ) : ℝ) ^ 2) * 10⌋) ∧
     convert_sample_block 1 1 0 0 1 0 0 (-2) = Except.ok (10, 0, 20, 22)) := by
  have hok : convert_sample_day 1 1 0 0 1 0 0 (-2) = Except.ok (10, 0, 20, 22) := by
    rw [convert_sample_day_eq 1 1 0 0 1 0 0 (-2) (by norm_num)]
    simp only [Except.ok.injEq, Prod.mk.injEq]
    refine ⟨by norm_num [truncQ], by norm_num [truncQ], by norm_num [truncQ], ?_⟩
    rw [if_pos ⟨by norm_num, by norm_num⟩]
    have harg : ((0 : ℚ) * 1 + 1) ^ 2 + ((-2 : ℚ) * -(1 : ℚ) + 0) ^ 2 = 5 := by norm_num
    rw [harg]
    unfold sqrtTimes10Trunc
    rw [show ⌊(5 : ℚ) * 100⌋ = 500 from by norm_num]
    rw [show ((500 : ℤ)).toNat = 500 from rfl]
    rw [show isqrt 500 = 22 from rfl]
    norm_num
  exact ⟨hok, C2_total_field 1 1 0 0 1 0 0 (-2) (10, 0, 20, 22) hok⟩

/-! ## Claim C8 — the output header line -/

/-- The header the claim describes (built from the specification's
words, for comparison with `dump_header`): identical to the code's
header except that the year is rendered as exactly two digits,
`year % 100` zero-padded. -/
def claimC8_header (opt : ProgOptions) : Except String (List Char) :=
  match monday opt.year opt.dayno with
  | Except.error e => Except.error e
  | Except.ok (mnth, dom) =>
    match pyListGet MONTHS ((mnth : ℤ) - 1) with
    | Except.error e => Except.error e
    | Except.ok mon =>
      Except.ok (pyUpper opt.stationname ++ ' ' ::
        (mon ++ pad2 dom ++ pad2 (opt.year % 100)) ++ ' ' ::
        intChars opt.dayno ++ ' ' :: intChars opt.start_minute ++ ' ' ::
        opt.imfv_header ++ ['\n'])

/-- A concrete whole-day options record for the C8 counterexample:
station `her`, 1 January 2005, `d_unit = 0`. -/
def optC8 : ProgOptions :=
  { stationname := "her".toList
    imfv_header := FILEHDR_NORMAL
    start_minute := 0, stop_minute := 1439
    d_nt := 0, scale_factor := 40
    lH := [], lD := [], lZ := [], lF := []
    H0 := 0, D0 := 0, Z0 := 0
    year := 2005, dayno := 1, nr_minutes := 1440 }

/-- C8 counterexample: the claim requires the year rendered as exactly
two digits (`year % 100`, zero-padded) and a 17-character
`HEADER_FLAGS` string.  The code renders `{opt.year % 100}` without
padding — for the year 2005 the header contains `JAN015`, not
`JAN0105` — and both header-flag constants have 43 characters, not
17. -/
theorem C8_counterexample :
    dump_header optC8 =
      Except.ok ("HER JAN015 1 0 HDZF R EDI 12440192 -14161 RRRRRRRRRRRRRRRR\n".toList) ∧
    dump_header optC8 ≠ claimC8_header optC8 ∧
    FILEHDR_NORMAL.length ≠ 17 ∧ FILEHDR_DNT.length ≠ 17 := by
  refine ⟨by decide, by decide, by decide, by decide⟩

/-- C8 (amended): the output header line has the form
`<STATION_UPPER> <MON><DD><YY> <DOY> <START_MINUTE> <HEADER_FLAGS>`,
where month and day-of-month come from `monday`, the day-of-month is
zero-padded to two digits but the year is rendered as the unpadded
decimal value of `year % 100` (one digit when `year % 100 < 10`), and
`HEADER_FLAGS` is one of two fixed 43-character strings selected by the
`d_unit` flag in `run_conversion` (line 144). -/
theorem C8_header_format (opt : ProgOptions) (m : ℕ) (dom : ℤ)
    (hm : monday opt.year opt.dayno = Except.ok (m, dom))
    (h1 : 1 ≤ m) (h2 : m ≤ 12) :
    dump_header opt = Except.ok (pyUpper opt.stationname ++ ' ' ::
      (MONTHS.getD (m - 1) [] ++ pad2 dom ++ intChars (opt.year % 100)) ++ ' ' ::
      intChars opt.dayno ++ ' ' :: intChars opt.start_minute ++ ' ' ::
      opt.imfv_header ++ ['\n']) ∧
    (∀ s H0 D0 Z0 a b du sc,
      (run_options s H0 D0 Z0 a b du sc).imfv_header =
        if du = 0 then FILEHDR_NORMAL else FILEHDR_DNT) ∧
    FILEHDR_NORMAL.length = 43 ∧ FILEHDR_DNT.length = 43 := by
  refine ⟨?_, fun s H0 D0 Z0 a b du sc => rfl, by decide, by decide⟩
  unfold dump_header
  rw [hm]
  dsimp only
  have hlen : ((m : ℤ) - 1) < (MONTHS.length : ℤ) := by
    simp only [MONTHS, List.length]
    omega
  rw [pyListGet_ok MONTHS ((m : ℤ) - 1) [] (by omega) hlen]
  dsimp only
  have hidx : ((m : ℤ) - 1).toNat = m - 1 := by omega
  rw [hidx]

theorem C8_header_format_witness :
    (monday optC8.year optC8.dayno = Except.ok (1, 1) ∧ (1 : ℕ) ≤ 1 ∧ (1 : ℕ) ≤ 12) ∧
    (dump_header optC8 = Except.ok (pyUpper optC8.stationname ++ ' ' ::
       (MONTHS.getD (1 - 1) [] ++ pad2 1 ++ intChars (optC8.year % 100)) ++ ' ' ::
       intChars optC8.dayno ++ ' ' :: intChars optC8.start_minute ++ ' ' ::
       optC8.imfv_header ++ ['\n']) ∧
     (∀ s H0 D0 Z0 a b du sc,
       (run_options s H0 D0 Z0 a b du sc).imfv_header =
         if du = 0 then FILEHDR_NORMAL else FILEHDR_DNT) ∧
     FILEHDR_NORMAL.length = 43 ∧ FILEHDR_DNT.length = 43) :=
  ⟨⟨by decide, by decide, by decide⟩,
    C8_header_format optC8 1 1 (by decide) (by decide) (by decide)⟩

/-! ## Claim C4 — the line tokenizer

The two concrete examples are settled by computation.  For the third
part of the claim — a well-separated line is returned unchanged — the
grammar `SepLine` below formalises "decimal tokens separated by
whitespace" (tokens `-?\d+\.\d+`, separated by whitespace runs, with
arbitrary leading/trailing whitespace), and we prove that neither
substitution pass can match anywhere in such a line. -/

/-- Well-separated lines: whitespace and decimal tokens
`-?digits.digits`, every token followed by whitespace or the end of the
line. -/
inductive SepLine : List Char → Prop where
  | nil : SepLine []
  | ws {c : Char} {l : List Char} : isWs c = true → SepLine l → SepLine (c :: l)
  | tokEnd {neg : Bool} {a b : List Char} :
      a ≠ [] → b ≠ [] → (∀ x ∈ a, isDig x = true) → (∀ x ∈ b, isDig x = true) →
      SepLine ((if neg then ['-'] else []) ++ a ++ '.' :: b)
  | tokWs {neg : Bool} {a b : List Char} {c : Char} {l : List Char} :
      a ≠ [] → b ≠ [] → (∀ x ∈ a, isDig x = true) → (∀ x ∈ b, isDig x = true) →
      isWs c = true → SepLine l →
      SepLine ((if neg then ['-'] else []) ++ a ++ '.' :: (b ++ c :: l))

/-- What may follow the fractional digits of a token: end of line, or a
whitespace character. -/
def AfterEnd (r : List Char) : Prop :=
  r = [] ∨ ∃ c t, r = c :: t ∧ isWs c = true

/-- As `AfterEnd`, but additionally the rest of the line after the
whitespace character is well separated. -/
def AfterTok (r : List Char) : Prop :=
  r = [] ∨ ∃ c t, r = c :: t ∧ isWs c = true ∧ SepLine t

/-- All suffixes of a well-separated line have one of these three
shapes: a well-separated line, a suffix cut inside the integer part of a
token (or at its dot), or a suffix cut inside the fractional part. -/
inductive Scan : List Char → Prop where
  | sep {l : List Char} : SepLine l → Scan l
  | midInt {a b r : List Char} :
      (∀ x ∈ a, isDig x = true) → b ≠ [] → (∀ x ∈ b, isDig x = true) →
      AfterTok r → Scan (a ++ '.' :: (b ++ r))
  | midFrac {b r : List Char} :
      b ≠ [] → (∀ x ∈ b, isDig x = true) → AfterTok r → Scan (b ++ r)

theorem afterTok_afterEnd {r : List Char} (h : AfterTok r) : AfterEnd r := by
  rcases h with rfl | ⟨c, t, rfl, hw, _⟩
  · exact Or.inl rfl
  · exact Or.inr ⟨c, t, rfl, hw⟩

theorem ws_not_dig {c : Char} (h : isWs c = true) : isDig c = false := by
  have h2 : c = ' ' ∨ c = '\t' ∨ c = '\r' ∨ c = '\n' := by
    simpa [isWs, Char.isWhitespace, or_assoc] using h
  rcases h2 with rfl | rfl | rfl | rfl <;> decide

theorem ws_ne_dash {c : Char} (h : isWs c = true) : c ≠ '-' := by
  intro hc
  subst hc
  exact absurd h (by decide)

theorem ws_ne_dot {c : Char} (h : isWs c = true) : c ≠ '.' := by
  intro hc
  subst hc
  exact absurd h (by decide)

theorem dig_ne_dash {c : Char} (h : isDig c = true) : c ≠ '-' := by
  intro hc
  subst hc
  exact absurd h (by decide)

theorem takeWhile_all_digits (a : List Char) (ha : ∀ x ∈ a, isDig x = true) :
    a.takeWhile isDig = a ∧ a.dropWhile isDig = [] := by
  induction a with
  | nil => exact ⟨rfl, rfl⟩
  | cons c t ih =>
    have hc : isDig c = true := ha c (List.mem_cons_self c t)
    have ht := ih (fun x hx => ha x (List.mem_cons_of_mem c hx))
    simp [List.takeWhile_cons, List.dropWhile_cons, hc, ht.1, ht.2]

theorem span_digits_cons (a : List Char) (x : Char) (t : List Char)
    (ha : ∀ y ∈ a, isDig y = true) (hx : isDig x = false) :
    (a ++ x :: t).takeWhile isDig = a ∧ (a ++ x :: t).dropWhile isDig = x :: t := by
  induction a with
  | nil => simp [List.takeWhile_cons, List.dropWhile_cons, hx]
  | cons c t2 ih =>
    have hc : isDig c = true := ha c (List.mem_cons_self c t2)
    have ht := ih (fun y hy => ha y (List.mem_cons_of_mem c hy))
    simp [List.takeWhile_cons, List.dropWhile_cons, hc, ht.1, ht.2]

theorem span_digits (a r : List Char) (ha : ∀ y ∈ a, isDig y = true)
    (hr : AfterEnd r) :
    (a ++ r).takeWhile isDig = a ∧ (a ++ r).dropWhile isDig = r := by
  rcases hr with rfl | ⟨c, t, rfl, hcw⟩
  · simpa using takeWhile_all_digits a ha
  · exact span_digits_cons a c t ha (ws_not_dig hcw)

theorem matchCore_none_head (neg1 : List Char) {c : Char} (t : List Char)
    (hc : isDig c = false) : matchCore neg1 (c :: t) = none := by
  unfold matchCore
  rw [show List.dropWhile isDig (c :: t) = c :: t by simp [List.dropWhile_cons, hc],
      show List.takeWhile isDig (c :: t) = ([] : List Char) by simp [List.takeWhile_cons, hc]]
  dsimp only
  simp

theorem matchCore_none_digits (neg1 b r : List Char)
    (hbd : ∀ x ∈ b, isDig x = true) (hr : AfterEnd r) :
    matchCore neg1 (b ++ r) = none := by
  have hspan := span_digits b r hbd hr
  rcases hr with rfl | ⟨c, t, rfl, hcw⟩
  · rw [List.append_nil] at hspan ⊢
    unfold matchCore
    rw [hspan.2]
  · have hdot : c ≠ '.' := ws_ne_dot hcw
    unfold matchCore
    rw [hspan.2, hspan.1]
    simp [hdot]

theorem matchCore_none_token (neg1 a b r : List Char)
    (ha : ∀ y ∈ a, isDig y = true) (hb : b ≠ []) (hbd : ∀ x ∈ b, isDig x = true)
    (hr : AfterEnd r) :
    matchCore neg1 (a ++ '.' :: (b ++ r)) = none := by
  have hspan1 := span_digits_cons a '.' (b ++ r) ha (by decide)
  have hspan2 := span_digits b r hbd hr
  rcases hr with rfl | ⟨c, t, rfl, hcw⟩
  · rw [List.append_nil] at hspan1 hspan2 ⊢
    unfold matchCore
    rw [hspan1.2, hspan1.1]
    dsimp only
    rw [hspan2.2]
    dsimp only
    simp
  · have hdash : c ≠ '-' := ws_ne_dash hcw
    have hdot : c ≠ '.' := ws_ne_dot hcw
    unfold matchCore
    rw [hspan1.2, hspan1.1]
    dsimp only
    rw [hspan2.2, hspan2.1]
    dsimp only
    simp [hb, hdash, hdot]

theorem matchAt_cons_of_ne_dash (sign1 : Bool) (c : Char) (t : List Char)
    (hc : c ≠ '-') : matchAt sign1 (c :: t) = matchCore [] (c :: t) := by
  unfold matchAt
  dsimp only
  rw [if_neg (by rintro ⟨_, rfl⟩; exact hc rfl)]

theorem matchAt_none_of_scan (sign1 : Bool) : ∀ l, Scan l → matchAt sign1 l = none := by
  intro l hl
  cases hl with
  | sep hsep =>
    cases hsep with
    | nil => rfl
    | @ws c t hw hs =>
      rw [matchAt_cons_of_ne_dash sign1 c t (ws_ne_dash hw)]
      exact matchCore_none_head [] t (ws_not_dig hw)
    | @tokEnd neg a b ha hb hda hdb =>
      have hcore : matchCore ([] : List Char) (a ++ '.' :: b) = none := by
        have := matchCore_none_token [] a b [] hda hb hdb (Or.inl rfl)
        rwa [List.append_nil] at this
      cases neg with
      | false =>
        cases a with
        | nil => exact absurd rfl ha
        | cons a0 a2 =>
          have h0 : isDig a0 = true := hda a0 (List.mem_cons_self a0 a2)
          show matchAt sign1 ((a0 :: a2) ++ '.' :: b) = none
          rw [show ((a0 :: a2) ++ '.' :: b) = a0 :: (a2 ++ '.' :: b) from rfl]
          rw [matchAt_cons_of_ne_dash sign1 a0 _ (dig_ne_dash h0)]
          exact hcore
      | true =>
        show matchAt sign1 ('-' :: (a ++ '.' :: b)) = none
        by_cases hs : sign1 = true
        · unfold matchAt
          dsimp only
          rw [if_pos ⟨hs, rfl⟩]
          have := matchCore_none_token ['-'] a b [] hda hb hdb (Or.inl rfl)
          rwa [List.append_nil] at this
        · unfold matchAt
          dsimp only
          rw [if_neg (fun h => hs h.1)]
          exact matchCore_none_head [] _ (by decide)

    | @tokWs neg a b c t ha hb hda hdb hw hs =>
      have hcore : ∀ neg1, matchCore neg1 (a ++ '.' :: (b ++ c :: t)) = none :=
        fun neg1 => matchCore_none_token neg1 a b (c :: t) hda hb hdb (Or.inr ⟨c, t, rfl, hw⟩)
      cases neg with
      | false =>
        cases a with
        | nil => exact absurd rfl ha
        | cons a0 a2 =>
          have h0 : isDig a0 = true := hda a0 (List.mem_cons_self a0 a2)
          show matchAt sign1 ((a0 :: a2) ++ '.' :: (b ++ c :: t)) = none
          rw [show ((a0 :: a2) ++ '.' :: (b ++ c :: t)) = a0 :: (a2 ++ '.' :: (b ++ c :: t)) from rfl]
          rw [matchAt_cons_of_ne_dash sign1 a0 _ (dig_ne_dash h0)]
          exact hcore []
      | true =>
        show matchAt sign1 ('-' :: (a ++ '.' :: (b ++ c :: t))) = none
        by_cases hsg : sign1 = true
        · unfold matchAt
          dsimp only
          rw [if_pos ⟨hsg, rfl⟩]
          exact hcore ['-']
        · unfold matchAt
          dsimp only
          rw [if_neg (fun h => hsg h.1)]
          exact matchCore_none_head [] _ (by decide)
  | @midInt a b r hda hb hdb hr =>
    have hcore : matchCore ([] : List Char) (a ++ '.' :: (b ++ r)) = none :=
      matchCore_none_token [] a b r hda hb hdb (afterTok_afterEnd hr)
    cases a with
    | nil =>
      show matchAt sign1 ('.' :: (b ++ r)) = none
      rw [matchAt_cons_of_ne_dash sign1 '.' _ (by decide)]
      exact hcore
    | cons a0 a2 =>
      have h0 : isDig a0 = true := hda a0 (List.mem_cons_self a0 a2)
      show matchAt sign1 (a0 :: (a2 ++ '.' :: (b ++ r))) = none
      rw [matchAt_cons_of_ne_dash sign1 a0 _ (dig_ne_dash h0)]
      exact hcore
  | @midFrac b r hb hdb hr =>
    cases b with
    | nil => exact absurd rfl hb
    | cons b0 b2 =>
      have h0 : isDig b0 = true := hdb b0 (List.mem_cons_self b0 b2)
      show matchAt sign1 (b0 :: (b2 ++ r)) = none
      rw [matchAt_cons_of_ne_dash sign1 b0 _ (dig_ne_dash h0)]
      exact matchCore_none_digits [] (b0 :: b2) r hdb (afterTok_afterEnd hr)

theorem scan_tail : ∀ l, Scan l → ∀ c t, l = c :: t → Scan t := by
  intro l hl
  cases hl with
  | sep hsep =>
    cases hsep with
    | nil =>
      intro c t h
      exact absurd h (by simp)
    | @ws c0 l0 hw hs =>
      intro c t h
      injection h with h1 h2
      subst h2
      exact Scan.sep hs
    | @tokEnd neg a b ha hb hda hdb =>
      intro c t h
      cases neg with
      | true =>
        injection (show '-' :: (a ++ '.' :: b) = c :: t from h) with h1 h2
        subst h2
        have := Scan.midInt (a := a) (b := b) (r := ([] : List Char)) hda hb hdb (Or.inl rfl)
        rwa [List.append_nil] at this
      | false =>
        cases a with
        | nil => exact absurd rfl ha
        | cons a0 a2 =>
          injection (show a0 :: (a2 ++ '.' :: b) = c :: t from h) with h1 h2
          subst h2
          have := Scan.midInt (a := a2) (b := b) (r := ([] : List Char))
            (fun x hx => hda x (List.mem_cons_of_mem a0 hx)) hb hdb (Or.inl rfl)
          rwa [List.append_nil] at this
    | @tokWs neg a b c0 l0 ha hb hda hdb hw hs =>
      intro c t h
      have hat : AfterTok (c0 :: l0) := Or.inr ⟨c0, l0, rfl, hw, hs⟩
      cases neg with
      | true =>
        injection (show '-' :: (a ++ '.' :: (b ++ c0 :: l0)) = c :: t from h) with h1 h2
        subst h2
        exact Scan.midInt hda hb hdb hat
      | false =>
        cases a with
        | nil => exact absurd rfl ha
        | cons a0 a2 =>
          injection (show a0 :: (a2 ++ '.' :: (b ++ c0 :: l0)) = c :: t from h) with h1 h2
          subst h2
          exact Scan.midInt (fun x hx => hda x (List.mem_cons_of_mem a0 hx)) hb hdb hat
  | @midInt a b r hda hb hdb hr =>
    intro c t h
    cases a with
    | nil =>
      simp only [List.nil_append, List.cons.injEq] at h
      obtain ⟨h1, h2⟩ := h
      subst h2
      exact Scan.midFrac hb hdb hr
    | cons a0 a2 =>
      simp only [List.cons_append, List.cons.injEq] at h
      obtain ⟨h1, h2⟩ := h
      subst h2
      exact Scan.midInt (fun x hx => hda x (List.mem_cons_of_mem a0 hx)) hb hdb hr
  | @midFrac b r hb hdb hr =>
    intro c t h
    cases b with
    | nil => exact absurd rfl hb
    | cons b0 b2 =>
      simp only [List.cons_append, List.cons.injEq] at h
      obtain ⟨h1, h2⟩ := h
      subst h2
      cases b2 with
      | nil =>
        rcases hr with rfl | ⟨c2, t2, rfl, hw2, hs2⟩
        · exact Scan.sep SepLine.nil
        · exact Scan.sep (SepLine.ws hw2 hs2)
      | cons b1 b3 =>
        exact Scan.midFrac (b := b1 :: b3) (by simp)
          (fun x hx => hdb x (List.mem_cons_of_mem b0 hx)) hr

theorem subPassAux_id (sign1 : Bool) :
    ∀ (fuel : ℕ) (l : List Char), Scan l → subPassAux sign1 fuel l = l := by
  intro fuel
  induction fuel with
  | zero =>
    intro l _
    rfl
  | succ f ih =>
    intro l hl
    cases l with
    | nil => rfl
    | cons c cs =>
      have hm := matchAt_none_of_scan sign1 _ hl
      have ht := ih cs (scan_tail _ hl c cs rfl)
      simp only [subPassAux, hm, ht]

theorem subPass_id (sign1 : Bool) (l : List Char) (h : SepLine l) :
    subPass sign1 l = l :=
  subPassAux_id sign1 l.length l (Scan.sep h)

theorem format_data_line_id (l : List Char) (h : SepLine l) :
    format_data_line l = l := by
  unfold format_data_line
  rw [subPass_id false l h, subPass_id true l h]

/-- C4: the line tokenizer maps `"12.345-6.789"` to a string whose
whitespace split is `["12.345", "-6.789"]`, maps `"-1.234-5.678"` to one
splitting as `["-1.234", "-5.678"]`, and returns every already
well-separated line (decimal tokens separated by whitespace, `SepLine`)
unchanged. -/
theorem C4_format_data_line :
    splitWs (format_data_line "12.345-6.789".toList) =
      ["12.345".toList, "-6.789".toList] ∧
    splitWs (format_data_line "-1.234-5.678".toList) =
      ["-1.234".toList, "-5.678".toList] ∧
    ∀ l, SepLine l → format_data_line l = l :=
  ⟨by decide, by decide, fun l h => format_data_line_id l h⟩

theorem C4_format_data_line_witness :
    SepLine ("-0.5 12.25".toList) ∧
    format_data_line ("-0.5 12.25".toList) = "-0.5 12.25".toList :=
  have hsep : SepLine ("-0.5 12.25".toList) :=
    @SepLine.tokWs true ['0'] ['5'] ' ' ("12.25".toList)
      (by decide) (by decide) (by decide) (by decide) (by decide)
      (@SepLine.tokEnd false ['1', '2'] ['2', '5']
        (by decide) (by decide) (by decide) (by decide))
  ⟨hsep, C4_format_data_line.2.2 ("-0.5 12.25".toList) hsep⟩

/-! ## Claim C7 — the fixed-width output body -/

/-- The claim's rendering of one minute's quadruple: H, D, Z right
justified in width exactly 7 and F in width exactly 6, separated by
single spaces. -/
def specC7Quad (lH lD lZ lF : List ℤ) (i : ℤ) : List Char :=
  rightJustify 7 (intChars (lH.getD i.toNat 0)) ++ ' ' ::
  rightJustify 7 (intChars (lD.getD i.toNat 0)) ++ ' ' ::
  rightJustify 7 (intChars (lZ.getD i.toNat 0)) ++ ' ' ::
  rightJustify 6 (intChars (lF.getD i.toNat 0))

/-- The claim's body text: for minute `i` stepping by 2 from start to
stop, the quadruple of minute `i`; then, when `i + 1 ≤ stop`, two
spaces, the quadruple of minute `i + 1` and a line break; an odd-length
range ends with a half-line holding only the first quadruple and no
trailing fields (and no line break). -/
def specC7Body (lH lD lZ lF : List ℤ) (start stop : ℤ) : List Char :=
  (range2 start stop).foldr
    (fun i acc => specC7Quad lH lD lZ lF i ++
      (if i + 1 ≤ stop then ' ' :: ' ' :: (specC7Quad lH lD lZ lF (i + 1) ++ ['\n']) else []) ++
      acc) []

theorem rightJustify_length (w : ℕ) (s : List Char) (h : s.length ≤ w) :
    (rightJustify w s).length = w := by
  simp [rightJustify]
  omega

theorem quadFields_ok (opt : ProgOptions) (i : ℤ) (h0 : 0 ≤ i)
    (hH : i < opt.lH.length) (hD : i < opt.lD.length)
    (hZ : i < opt.lZ.length) (hF : i < opt.lF.length) :
    quadFields opt i = Except.ok (specC7Quad opt.lH opt.lD opt.lZ opt.lF i) := by
  unfold quadFields
  rw [pyListGet_ok opt.lH i 0 h0 hH]
  dsimp only
  rw [pyListGet_ok opt.lD i 0 h0 hD]
  dsimp only
  rw [pyListGet_ok opt.lZ i 0 h0 hZ]
  dsimp only
  rw [pyListGet_ok opt.lF i 0 h0 hF]
  rfl

theorem dumpBodyAux_ok (opt : ProgOptions)
    (hH : opt.stop_minute < opt.lH.length) (hD : opt.stop_minute < opt.lD.length)
    (hZ : opt.stop_minute < opt.lZ.length) (hF : opt.stop_minute < opt.lF.length) :
    ∀ L : List ℤ, (∀ i ∈ L, 0 ≤ i ∧ i ≤ opt.stop_minute) →
      dumpBodyAux opt L = Except.ok (L.foldr
        (fun i acc => specC7Quad opt.lH opt.lD opt.lZ opt.lF i ++
          (if i + 1 ≤ opt.stop_minute then
            ' ' :: ' ' :: (specC7Quad opt.lH opt.lD opt.lZ opt.lF (i + 1) ++ ['\n'])
          else []) ++ acc) []) := by
  intro L
  induction L with
  | nil =>
    intro _
    rfl
  | cons i L2 ih =>
    intro hmem
    obtain ⟨hi0, histop⟩ := hmem i (List.mem_cons_self i L2)
    have hq1 := quadFields_ok opt i hi0 (by omega) (by omega) (by omega) (by omega)
    have ht := ih (fun j hj => hmem j (List.mem_cons_of_mem i hj))
    unfold dumpBodyAux
    rw [hq1]
    dsimp only
    by_cases hstep : i + 1 ≤ opt.stop_minute
    · have hq2 := quadFields_ok opt (i + 1) (by omega) (by omega) (by omega) (by omega) (by omega)
      rw [if_pos hstep, hq2]
      dsimp only
      rw [ht]
      simp [hstep]
    · rw [if_neg hstep]
      dsimp only
      rw [ht]
      simp [hstep]

theorem range2_bounds (s t : ℤ) : ∀ i ∈ range2 s t, s ≤ i ∧ i ≤ t := by
  intro i hi
  unfold range2 at hi
  by_cases hst : s ≤ t
  · rw [if_pos hst] at hi
    obtain ⟨k, hk, rfl⟩ := List.mem_map.mp hi
    have hk2 := List.mem_range.mp hk
    have hdm := Nat.div_add_mod (t - s).toNat 2
    have hmod : (t - s).toNat % 2 < 2 := Nat.mod_lt _ (by norm_num)
    omega
  · rw [if_neg hst] at hi
    exact absurd hi (List.not_mem_nil i)

/-- C7: under the loop of `dump_data` lines 123–126 (given in-range
arrays and field values that fit their widths), for every minute `i`
from `start_minute` stepping by 2 up to `stop_minute` the body emits the
quadruple H, D, Z, F of minute `i` right-justified in field widths
exactly 7, 7, 7 and 6; when `i + 1 ≤ stop_minute` the line continues
with two spaces and the quadruple of minute `i + 1` and is terminated by
a line break; an odd-length range ends the file with a half-line holding
only the first quadruple and no trailing fields. -/
theorem C7_output_body (opt : ProgOptions)
    (h0 : 0 ≤ opt.start_minute)
    (hH : opt.stop_minute < opt.lH.length) (hD : opt.stop_minute < opt.lD.length)
    (hZ : opt.stop_minute < opt.lZ.length) (hF : opt.stop_minute < opt.lF.length)
    (hfit : ∀ i, opt.start_minute ≤ i → i ≤ opt.stop_minute →
      (intChars (opt.lH.getD i.toNat 0)).length ≤ 7 ∧
      (intChars (opt.lD.getD i.toNat 0)).length ≤ 7 ∧
      (intChars (opt.lZ.getD i.toNat 0)).length ≤ 7 ∧
      (intChars (opt.lF.getD i.toNat 0)).length ≤ 6) :
    dumpBodyAux opt (range2 opt.start_minute opt.stop_minute) =
      Except.ok (specC7Body opt.lH opt.lD opt.lZ opt.lF opt.start_minute opt.stop_minute) ∧
    ∀ i, opt.start_minute ≤ i → i ≤ opt.stop_minute →
      (rightJustify 7 (intChars (opt.lH.getD i.toNat 0))).length = 7 ∧
      (rightJustify 7 (intChars (opt.lD.getD i.toNat 0))).length = 7 ∧
      (rightJustify 7 (intChars (opt.lZ.getD i.toNat 0))).length = 7 ∧
      (rightJustify 6 (intChars (opt.lF.getD i.toNat 0))).length = 6 := by
  constructor
  · exact dumpBodyAux_ok opt hH hD hZ hF (range2 opt.start_minute opt.stop_minute)
      (fun i hi => by
        obtain ⟨h1, h2⟩ := range2_bounds opt.start_minute opt.stop_minute i hi
        exact ⟨by omega, h2⟩)
  · intro i h1 h2
    obtain ⟨f1, f2, f3, f4⟩ := hfit i h1 h2
    exact ⟨rightJustify_length 7 _ f1, rightJustify_length 7 _ f2,
      rightJustify_length 7 _ f3, rightJustify_length 6 _ f4⟩

/-- A concrete options record (three minutes, odd-length range) for the
C7 witness. -/
def optC7 : ProgOptions :=
  { stationname := "her".toList
    imfv_header := FILEHDR_NORMAL
    start_minute := 0, stop_minute := 2
    d_nt := 0, scale_factor := 40
    lH := [1, -2, 3], lD := [4, 5, 6], lZ := [-7, 8, 9], lF := [10, 11, 999999]
    H0 := 0, D0 := 0, Z0 := 0
    year := 2014, dayno := 174, nr_minutes := 3 }

theorem C7_output_body_witness :
    dumpBodyAux optC7 (range2 optC7.start_minute optC7.stop_minute) =
      Except.ok (specC7Body optC7.lH optC7.lD optC7.lZ optC7.lF
        optC7.start_minute optC7.stop_minute) ∧
    ∀ i, optC7.start_minute ≤ i → i ≤ optC7.stop_minute →
      (rightJustify 7 (intChars (optC7.lH.getD i.toNat 0))).length = 7 ∧
      (rightJustify 7 (intChars (optC7.lD.getD i.toNat 0))).length = 7 ∧
      (rightJustify 7 (intChars (optC7.lZ.getD i.toNat 0))).length = 7 ∧
      (rightJustify 6 (intChars (optC7.lF.getD i.toNat 0))).length = 6 :=
  C7_output_body optC7 (by decide) (by decide) (by decide) (by decide) (by decide)
    (fun i h1 h2 => by
      simp only [optC7] at h1 h2
      have h3 : i = 0 ∨ i = 1 ∨ i = 2 := by omega
      rcases h3 with rfl | rfl | rfl <;>
        exact ⟨by decide, by decide, by decide, by decide⟩)

/-! ## Claim C5 — the whole-day series builder -/

theorem getD_set_ne (l : List ℤ) (e j : ℕ) (v : ℤ) (h : j ≠ e) :
    (l.set e v).getD j 0 = l.getD j 0 := by
  rw [List.getD_eq_getElem?_getD, List.getD_eq_getElem?_getD,
    List.getElem?_set_ne (by omega)]

theorem pyListSetIdx_some (l : List ℤ) (i : ℤ) (v : ℤ) (l2 : List ℤ) (e : ℕ)
    (h : pyListSetIdx l i v = some (l2, e)) : l2 = l.set e v := by
  unfold pyListSetIdx at h
  cases hp : pyIndex l.length i with
  | none => rw [hp] at h; exact absurd h (by simp)
  | some n =>
    rw [hp] at h
    simp only [Option.map_some', Option.some.injEq, Prod.mk.injEq] at h
    obtain ⟨h1, h2⟩ := h
    rw [← h1, h2]

theorem pyListSetIdx_eq_of_nonneg (l : List ℤ) (i : ℤ) (v : ℤ)
    (h0 : 0 ≤ i) (hlt : i < l.length) :
    pyListSetIdx l i v = some (l.set i.toNat v, i.toNat) := by
  unfold pyListSetIdx pyIndex
  rw [if_pos ⟨h0, hlt⟩]
  rfl

theorem rcr_step_frame (opt : ProgOptions) (index : ℤ) (line : List Char)
    (opt2 : ProgOptions) (index2 : ℤ) (ws : List ℕ)
    (h : rcr_step opt index line = Except.ok (opt2, index2, ws)) :
    opt2.lH.length = opt.lH.length ∧ opt2.lD.length = opt.lD.length ∧
    opt2.lZ.length = opt.lZ.length ∧ opt2.lF.length = opt.lF.length ∧
    opt2.scale_factor = opt.scale_factor ∧ opt2.H0 = opt.H0 ∧
    opt2.D0 = opt.D0 ∧ opt2.Z0 = opt.Z0 ∧ opt2.d_nt = opt.d_nt ∧
    opt2.nr_minutes = opt.nr_minutes ∧
    ∀ j : ℕ, j ∉ ws →
      opt2.lH.getD j 0 = opt.lH.getD j 0 ∧ opt2.lD.getD j 0 = opt.lD.getD j 0 ∧
      opt2.lZ.getD j 0 = opt.lZ.getD j 0 ∧ opt2.lF.getD j 0 = opt.lF.getD j 0 := by
  unfold rcr_step at h
  by_cases hlen : (pyStrip line).length ≤ 15
  · rw [if_pos hlen] at h
    cases hp : parseInt3 (splitWs (pyStrip line)) with
    | none => rw [hp] at h; exact absurd h (by simp)
    | some v =>
      obtain ⟨y, d, i⟩ := v
      rw [hp] at h
      dsimp only at h
      simp only [Except.ok.injEq, Prod.mk.injEq] at h
      obtain ⟨h1, h2, h3⟩ := h
      subst h1
      subst h3
      exact ⟨rfl, rfl, rfl, rfl, rfl, rfl, rfl, rfl, rfl, rfl,
        fun j _ => ⟨rfl, rfl, rfl, rfl⟩⟩
  · rw [if_neg hlen] at h
    cases hp : parseFloat3 (splitWs (format_data_line (pyStrip line))) with
    | none => rw [hp] at h; exact absurd h (by simp)
    | some v =>
      obtain ⟨Hraw, Draw, Zraw⟩ := v
      rw [hp] at h
      dsimp only at h
      cases hs1 : pyListSetIdx opt.lH index
          (truncQ ((Hraw * opt.scale_factor + opt.H0) * 10)) with
      | none => rw [hs1] at h; exact absurd h (by simp)
      | some p1 =>
        obtain ⟨lH2, e1⟩ := p1
        rw [hs1] at h
        dsimp only at h
        by_cases hz : opt.d_nt = 0 ∧ Hraw * opt.scale_factor + opt.H0 = 0
        · rw [if_pos hz] at h; exact absurd h (by simp)
        · rw [if_neg hz] at h
          cases hs2 : pyListSetIdx opt.lD index
              (truncQ ((Draw * (if opt.d_nt = 0 then
                  opt.scale_factor * 3438 / (Hraw * opt.scale_factor + opt.H0)
                else opt.scale_factor) + opt.D0) *
                (if opt.d_nt ≠ 0 then 10 else 100))) with
          | none => rw [hs2] at h; exact absurd h (by simp)
          | some p2 =>
            obtain ⟨lD2, e2⟩ := p2
            rw [hs2] at h
            dsimp only at h
            cases hs3 : pyListSetIdx opt.lZ index
                (truncQ ((Zraw * -opt.scale_factor + opt.Z0) * 10)) with
            | none => rw [hs3] at h; exact absurd h (by simp)
            | some p3 =>
              obtain ⟨lZ2, e3⟩ := p3
              rw [hs3] at h
              dsimp only at h
              cases hs4 : pyListSetIdx opt.lF index
                  (if Hraw * opt.scale_factor + opt.H0 ≠ 0 ∧
                      Zraw * -opt.scale_factor + opt.Z0 ≠ 0 then
                    sqrtTimes10Trunc ((Hraw * opt.scale_factor + opt.H0) ^ 2 +
                      (Zraw * -opt.scale_factor + opt.Z0) ^ 2)
                  else 999999) with
              | none => rw [hs4] at h; exact absurd h (by simp)
              | some p4 =>
                obtain ⟨lF2, e4⟩ := p4
                rw [hs4] at h
                dsimp only at h
                simp only [Except.ok.injEq, Prod.mk.injEq] at h
                obtain ⟨h1, h2, h3⟩ := h
                subst h1
                subst h3
                have g1 := pyListSetIdx_some _ _ _ _ _ hs1
                have g2 := pyListSetIdx_some _ _ _ _ _ hs2
                have g3 := pyListSetIdx_some _ _ _ _ _ hs3
                have g4 := pyListSetIdx_some _ _ _ _ _ hs4
                subst g1
                subst g2
                subst g3
                subst g4
                refine ⟨by simp [List.length_set], by simp [List.length_set],
                  by simp [List.length_set], by simp [List.length_set],
                  rfl, rfl, rfl, rfl, rfl, rfl, ?_⟩
                intro j hj
                simp only [List.mem_cons, List.not_mem_nil, or_false, not_or] at hj
                obtain ⟨hj1, hj2, hj3, hj4⟩ := hj
                exact ⟨getD_set_ne _ _ _ _ hj1, getD_set_ne _ _ _ _ hj2,
                  getD_set_ne _ _ _ _ hj3, getD_set_ne _ _ _ _ hj4⟩

theorem rcr_loop_frame :
    ∀ (lines : List (List Char)) (opt : ProgOptions) (index : ℤ)
      (opt2 : ProgOptions) (index2 : ℤ) (ws : List ℕ),
      rcr_loop opt index lines = Except.ok (opt2, index2, ws) →
      opt2.lH.length = opt.lH.length ∧ opt2.lD.length = opt.lD.length ∧
      opt2.lZ.length = opt.lZ.length ∧ opt2.lF.length = opt.lF.length ∧
      opt2.scale_factor = opt.scale_factor ∧ opt2.H0 = opt.H0 ∧
      opt2.D0 = opt.D0 ∧ opt2.Z0 = opt.Z0 ∧ opt2.d_nt = opt.d_nt ∧
      opt2.nr_minutes = opt.nr_minutes ∧
      ∀ j : ℕ, j ∉ ws →
        opt2.lH.getD j 0 = opt.lH.getD j 0 ∧ opt2.lD.getD j 0 = opt.lD.getD j 0 ∧
        opt2.lZ.getD j 0 = opt.lZ.getD j 0 ∧ opt2.lF.getD j 0 = opt.lF.getD j 0 := by
  intro lines
  induction lines with
  | nil =>
    intro opt index opt2 index2 ws h
    unfold rcr_loop at h
    simp only [Except.ok.injEq, Prod.mk.injEq] at h
    obtain ⟨h1, h2, h3⟩ := h
    subst h1
    subst h3
    exact ⟨rfl, rfl, rfl, rfl, rfl, rfl, rfl, rfl, rfl, rfl,
      fun j _ => ⟨rfl, rfl, rfl, rfl⟩⟩
  | cons line rest ih =>
    intro opt index opt2 index2 ws h
    unfold rcr_loop at h
    cases h1 : rcr_step opt index line with
    | error e => rw [h1] at h; exact absurd h (by simp)
    | ok p =>
      obtain ⟨o2, i2, ws1⟩ := p
      rw [h1] at h
      dsimp only at h
      cases h2 : rcr_loop o2 i2 rest with
      | error e => rw [h2] at h; exact absurd h (by simp)
      | ok p2 =>
        obtain ⟨o3, i3, ws2⟩ := p2
        rw [h2] at h
        dsimp only at h
        simp only [Except.ok.injEq, Prod.mk.injEq] at h
        obtain ⟨hq1, hq2, hq3⟩ := h
        subst hq1
        subst hq3
        obtain ⟨s1, s2, s3, s4, s5, s6, s7, s8, s9, s10, sfr⟩ :=
          rcr_step_frame _ _ _ _ _ _ h1
        obtain ⟨t1, t2, t3, t4, t5, t6, t7, t8, t9, t10, tfr⟩ := ih o2 i2 o3 i3 ws2 h2
        refine ⟨t1.trans s1, t2.trans s2, t3.trans s3, t4.trans s4,
          t5.trans s5, t6.trans s6, t7.trans s7, t8.trans s8, t9.trans s9,
          t10.trans s10, fun j hj => ?_⟩
        simp only [List.mem_append, not_or] at hj
        obtain ⟨hj1, hj2⟩ := hj
        obtain ⟨u1, u2, u3, u4⟩ := sfr j hj1
        obtain ⟨w1, w2, w3, w4⟩ := tfr j hj2
        exact ⟨w1.trans u1, w2.trans u2, w3.trans u3, w4.trans u4⟩

theorem getD_replicate_zero (n j : ℕ) : (List.replicate n (0 : ℤ)).getD j 0 = 0 := by
  rw [List.getD_eq_getElem?_getD, List.getElem?_replicate]
  split <;> rfl

/-- C5: in the whole-day builder, each stripped input line of length
≤ 15 is parsed as three whitespace-separated integers that set
`(year, dayno, index)`; each stripped line of length > 15 is tokenized
by `format_data_line`, its first three floats converted by the record
conversion and stored at the current cursor index of the four
per-minute arrays, after which the cursor increments by 1; after a
successful run all four arrays have length `nr_minutes` and every index
never written by a data line holds 0 in all four arrays. -/
theorem C5_day_builder :
    (∀ (opt : ProgOptions) (index : ℤ) (line : List Char) (y d i : ℤ),
      (pyStrip line).length ≤ 15 →
      parseInt3 (splitWs (pyStrip line)) = some (y, d, i) →
      rcr_step opt index line =
        Except.ok ({ opt with year := y, dayno := d }, i, [])) ∧
    (∀ (opt : ProgOptions) (index : ℤ) (line : List Char) (h d z : ℚ),
      15 < (pyStrip line).length →
      parseFloat3 (splitWs (format_data_line (pyStrip line))) = some (h, d, z) →
      0 ≤ index → index < opt.lH.length → index < opt.lD.length →
      index < opt.lZ.length → index < opt.lF.length →
      ¬(opt.d_nt = 0 ∧ h * opt.scale_factor + opt.H0 = 0) →
      ∃ vH vD vZ vF,
        convert_sample_day opt.scale_factor opt.H0 opt.D0 opt.Z0 opt.d_nt h d z =
          Except.ok (vH, vD, vZ, vF) ∧
        rcr_step opt index line =
          Except.ok ({ opt with
              lH := opt.lH.set index.toNat vH, lD := opt.lD.set index.toNat vD,
              lZ := opt.lZ.set index.toNat vZ, lF := opt.lF.set index.toNat vF },
            index + 1, [index.toNat, index.toNat, index.toNat, index.toNat])) ∧
    (∀ (opt : ProgOptions) (lines : List (List Char)) (opt2 : ProgOptions),
      read_convert_raw opt lines = Except.ok opt2 →
      opt2.lH.length = opt.nr_minutes ∧ opt2.lD.length = opt.nr_minutes ∧
      opt2.lZ.length = opt.nr_minutes ∧ opt2.lF.length = opt.nr_minutes ∧
      ∃ (index2 : ℤ) (ws : List ℕ),
        rcr_loop (rcr_init opt) 0 lines = Except.ok (opt2, index2, ws) ∧
        ∀ j : ℕ, j ∉ ws →
          opt2.lH.getD j 0 = 0 ∧ opt2.lD.getD j 0 = 0 ∧
          opt2.lZ.getD j 0 = 0 ∧ opt2.lF.getD j 0 = 0) := by
  refine ⟨?_, ?_, ?_⟩
  · intro opt index line y d i hlen hp
    unfold rcr_step
    rw [if_pos hlen, hp]
  · intro opt index line h d z hlen hp h0 hr1 hr2 hr3 hr4 hnz
    refine ⟨truncQ ((h * opt.scale_factor + opt.H0) * 10),
      truncQ ((d * (if opt.d_nt = 0 then
          opt.scale_factor * 3438 / (h * opt.scale_factor + opt.H0)
        else opt.scale_factor) + opt.D0) * (if opt.d_nt ≠ 0 then 10 else 100)),
      truncQ ((z * (-opt.scale_factor) + opt.Z0) * 10),
      (if h * opt.scale_factor + opt.H0 ≠ 0 ∧ z * (-opt.scale_factor) + opt.Z0 ≠ 0 then
        sqrtTimes10Trunc ((h * opt.scale_factor + opt.H0) ^ 2 +
          (z * (-opt.scale_factor) + opt.Z0) ^ 2)
      else 999999), convert_sample_day_eq _ _ _ _ _ _ _ _ hnz, ?_⟩
    unfold rcr_step
    rw [if_neg (by omega), hp]
    dsimp only
    rw [pyListSetIdx_eq_of_nonneg opt.lH index _ h0 hr1]
    dsimp only
    rw [if_neg hnz]
    rw [pyListSetIdx_eq_of_nonneg opt.lD index _ h0 hr2]
    dsimp only
    rw [pyListSetIdx_eq_of_nonneg opt.lZ index _ h0 hr3]
    dsimp only
    rw [pyListSetIdx_eq_of_nonneg opt.lF index _ h0 hr4]
  · intro opt lines opt2 h
    unfold read_convert_raw at h
    cases h2 : rcr_loop (rcr_init opt) 0 lines with
    | error e => rw [h2] at h; exact absurd h (by simp)
    | ok p =>
      obtain ⟨o2, i2, ws⟩ := p
      rw [h2] at h
      dsimp only at h
      simp only [Except.ok.injEq] at h
      subst h
      obtain ⟨t1, t2, t3, t4, _, _, _, _, _, _, tfr⟩ :=
        rcr_loop_frame lines (rcr_init opt) 0 o2 i2 ws h2
      have hinit : (rcr_init opt).lH = List.replicate opt.nr_minutes 0 ∧
          (rcr_init opt).lD = List.replicate opt.nr_minutes 0 ∧
          (rcr_init opt).lZ = List.replicate opt.nr_minutes 0 ∧
          (rcr_init opt).lF = List.replicate opt.nr_minutes 0 :=
        ⟨rfl, rfl, rfl, rfl⟩
      refine ⟨by rw [t1, hinit.1, List.length_replicate],
        by rw [t2, hinit.2.1, List.length_replicate],
        by rw [t3, hinit.2.2.1, List.length_replicate],
        by rw [t4, hinit.2.2.2, List.length_replicate],
        i2, ws, rfl, fun j hj => ?_⟩
      obtain ⟨w1, w2, w3, w4⟩ := tfr j hj
      rw [hinit.1, getD_replicate_zero] at w1
      rw [hinit.2.1, getD_replicate_zero] at w2
      rw [hinit.2.2.1, getD_replicate_zero] at w3
      rw [hinit.2.2.2, getD_replicate_zero] at w4
      exact ⟨w1, w2, w3, w4⟩

/-- A one-minute options record for the C5 witness. -/
def optC5w : ProgOptions :=
  { stationname := "her".toList
    imfv_header := FILEHDR_NORMAL
    start_minute := 0, stop_minute := 0
    d_nt := 1, scale_factor := 1
    lH := [0], lD := [0], lZ := [0], lF := [0]
    H0 := 0, D0 := 0, Z0 := 0
    year := 0, dayno := 0, nr_minutes := 1 }

theorem C5_day_builder_witness :
    (rcr_step optC5w 0 ("2014 174 3".toList) =
      Except.ok ({ optC5w with year := 2014, dayno := 174 }, 3, [])) ∧
    (∃ vH vD vZ vF,
      convert_sample_day optC5w.scale_factor optC5w.H0 optC5w.D0 optC5w.Z0 optC5w.d_nt
          (natOfDigits "1000000".toList : ℚ) (natOfDigits "2000000".toList : ℚ)
          (natOfDigits "3000000".toList : ℚ) = Except.ok (vH, vD, vZ, vF) ∧
      rcr_step optC5w 0 ("1000000 2000000 3000000".toList) =
        Except.ok ({ optC5w with
            lH := optC5w.lH.set (0 : ℤ).toNat vH, lD := optC5w.lD.set (0 : ℤ).toNat vD,
            lZ := optC5w.lZ.set (0 : ℤ).toNat vZ, lF := optC5w.lF.set (0 : ℤ).toNat vF },
          (0 : ℤ) + 1, [(0 : ℤ).toNat, (0 : ℤ).toNat, (0 : ℤ).toNat, (0 : ℤ).toNat])) ∧
    (({ optC5w with year := 2014, dayno := 174 } : ProgOptions).lH.length = optC5w.nr_minutes ∧
     ({ optC5w with year := 2014, dayno := 174 } : ProgOptions).lD.length = optC5w.nr_minutes ∧
     ({ optC5w with year := 2014, dayno := 174 } : ProgOptions).lZ.length = optC5w.nr_minutes ∧
     ({ optC5w with year := 2014, dayno := 174 } : ProgOptions).lF.length = optC5w.nr_minutes ∧
     ∃ (index2 : ℤ) (ws : List ℕ),
       rcr_loop (rcr_init optC5w) 0 ["2014 174 0".toList] =
         Except.ok ({ optC5w with year := 2014, dayno := 174 }, index2, ws) ∧
       ∀ j : ℕ, j ∉ ws →
         ({ optC5w with year := 2014, dayno := 174 } : ProgOptions).lH.getD j 0 = 0 ∧
         ({ optC5w with year := 2014, dayno := 174 } : ProgOptions).lD.getD j 0 = 0 ∧
         ({ optC5w with year := 2014, dayno := 174 } : ProgOptions).lZ.getD j 0 = 0 ∧
         ({ optC5w with year := 2014, dayno := 174 } : ProgOptions).lF.getD j 0 = 0) :=
  ⟨C5_day_builder.1 optC5w 0 ("2014 174 3".toList) 2014 174 3 (by decide) (by decide),
   C5_day_builder.2.1 optC5w 0 ("1000000 2000000 3000000".toList) _ _ _
     (by decide) rfl (by decide) (by decide) (by decide) (by decide) (by decide)
     (fun hc => absurd hc.1 (by decide)),
   C5_day_builder.2.2 optC5w ["2014 174 0".toList]
     ({ optC5w with year := 2014, dayno := 174 }) rfl⟩

/-! ## Claim C3 — zero horizontal intensity aborts the whole-day run -/

theorem rcr_loop_append :
    ∀ (pre post : List (List Char)) (opt : ProgOptions) (index : ℤ),
      rcr_loop opt index (pre ++ post) =
        match rcr_loop opt index pre with
        | Except.error e => Except.error e
        | Except.ok (opt2, index2, ws) =>
          match rcr_loop opt2 index2 post with
          | Except.error e => Except.error e
          | Except.ok (opt3, index3, ws2) => Except.ok (opt3, index3, ws ++ ws2) := by
  intro pre
  induction pre with
  | nil =>
    intro post opt index
    simp only [List.nil_append, rcr_loop]
    cases hq : rcr_loop opt index post with
    | error e => rfl
    | ok p =>
      obtain ⟨o, i, w⟩ := p
      simp
  | cons l rest ih =>
    intro post opt index
    simp only [List.cons_append, rcr_loop]
    cases hs : rcr_step opt index l with
    | error e => rfl
    | ok p =>
      obtain ⟨o2, i2, w1⟩ := p
      dsimp only
      simp only [List.append_eq]
      rw [ih post o2 i2]
      cases h2 : rcr_loop o2 i2 rest with
      | error e => rfl
      | ok p2 =>
        obtain ⟨o3, i3, w2⟩ := p2
        dsimp only
        cases h3 : rcr_loop o3 i3 post with
        | error e => rfl
        | ok p3 =>
          obtain ⟨o4, i4, w3⟩ := p3
          dsimp only
          rw [List.append_assoc]

theorem rcr_step_div0 (opt : ProgOptions) (index : ℤ) (line : List Char)
    (h d z : ℚ)
    (hlen : 15 < (pyStrip line).length)
    (hp : parseFloat3 (splitWs (format_data_line (pyStrip line))) = some (h, d, z))
    (hd0 : opt.d_nt = 0) (hzero : h * opt.scale_factor + opt.H0 = 0) :
    ∃ e, rcr_step opt index line = Except.error e := by
  unfold rcr_step
  rw [if_neg (by omega), hp]
  dsimp only
  cases hs1 : pyListSetIdx opt.lH index (truncQ ((h * opt.scale_factor + opt.H0) * 10)) with
  | none => exact ⟨_, rfl⟩
  | some p1 =>
    obtain ⟨lH2, e1⟩ := p1
    dsimp only
    rw [if_pos ⟨hd0, hzero⟩]
    exact ⟨_, rfl⟩

/-- C3: when `d_unit = 0` and some data line's sample has
`Htmp = H_raw·s + H0 = 0`, the whole-day run treats this as an error:
the `Dscale` division raises, the exception is caught by the
`sys.exit` wrapper of `read_convert_raw` (a diagnostic), and the run
aborts before `dump_data` ever opens the output file — `run_conversion`
returns an error and no output text exists (not even partial). -/
theorem C3_zero_intensity_aborts (station : List Char) (H0 D0 Z0 : ℚ)
    (start stop : ℤ) (scale : ℚ) (pre post : List (List Char)) (line : List Char)
    (opt1 : ProgOptions) (idx : ℤ) (ws : List ℕ) (h d z : ℚ)
    (hpre : rcr_loop (rcr_init (run_options station H0 D0 Z0 start stop 0 scale)) 0 pre =
      Except.ok (opt1, idx, ws))
    (hlen : 15 < (pyStrip line).length)
    (hp : parseFloat3 (splitWs (format_data_line (pyStrip line))) = some (h, d, z))
    (hzero : h * scale + H0 = 0) :
    ∃ e, run_conversion station H0 D0 Z0 start stop 0 scale (pre ++ line :: post) =
      Except.error e := by
  obtain ⟨_, _, _, _, c5, c6, _, _, c9, _, _⟩ :=
    rcr_loop_frame pre _ 0 opt1 idx ws hpre
  have hz2 : h * opt1.scale_factor + opt1.H0 = 0 := by
    rw [show opt1.scale_factor = scale from c5, show opt1.H0 = H0 from c6]
    exact hzero
  have hd0 : opt1.d_nt = 0 := c9
  obtain ⟨e, he⟩ := rcr_step_div0 opt1 idx line h d z hlen hp hd0 hz2
  refine ⟨e, ?_⟩
  unfold run_conversion read_convert_raw
  rw [rcr_loop_append pre (line :: post) _ 0, hpre]
  dsimp only
  rw [show rcr_loop opt1 idx (line :: post) = Except.error e by
    unfold rcr_loop
    rw [he]]

theorem C3_zero_intensity_aborts_witness :
    ∃ e, run_conversion ("her".toList) 0 0 0 0 0 0 1
      ([] ++ ("0000000 1000000 2000000".toList) :: []) = Except.error e :=
  C3_zero_intensity_aborts ("her".toList) 0 0 0 0 0 1 [] []
    ("0000000 1000000 2000000".toList)
    (rcr_init (run_options ("her".toList) 0 0 0 0 0 0 1)) 0 []
    (natOfDigits "0000000".toList : ℚ) (natOfDigits "1000000".toList : ℚ)
    (natOfDigits "2000000".toList : ℚ)
    rfl (by decide) rfl
    (by rw [show natOfDigits "0000000".toList = 0 from by decide]; norm_num)

/-! ## Claim C6 — the 12-minute block extractor -/

theorem ex_loop_collect (start : ℤ) (bs : ℕ) :
    ∀ (ds : List (List Char)) (hdr : Option (List Char)) (b : List (List Char)) (cur : ℤ),
      (∀ l ∈ ds, ex_isHeader (pyStrip l) = false) → start ≤ cur → b.length < bs →
      ex_loop start bs ds hdr b cur = (hdr, b ++ (ds.map pyStrip).take (bs - b.length)) := by
  intro ds
  induction ds with
  | nil =>
    intro hdr b cur _ _ _
    simp [ex_loop]
  | cons d rest ih =>
    intro hdr b cur hnh hcur hblt
    have hd : ex_isHeader (pyStrip d) = false := hnh d (List.mem_cons_self d rest)
    have hrest : ∀ l ∈ rest, ex_isHeader (pyStrip l) = false :=
      fun l hl => hnh l (List.mem_cons_of_mem d hl)
    unfold ex_loop
    dsimp only
    rw [if_neg (by rw [hd]; exact Bool.false_ne_true), if_neg (by omega), if_pos hblt,
      if_pos hblt]
    by_cases hfull : (b ++ [pyStrip d]).length = bs
    · rw [if_pos hfull]
      have hk : bs - b.length = 1 := by
        simp only [List.length_append, List.length_singleton] at hfull ⊢
        omega
      simp [hk]
    · rw [if_neg hfull]
      have hlt2 : (b ++ [pyStrip d]).length < bs := by
        simp only [List.length_append, List.length_singleton] at hfull ⊢
        omega
      rw [ih hdr (b ++ [pyStrip d]) (cur + 1) hrest (by omega) hlt2]
      have hk : bs - b.length = (bs - (b ++ [pyStrip d]).length) + 1 := by
        simp only [List.length_append, List.length_singleton]
        omega
      rw [hk]
      simp [List.take_succ_cons, List.append_assoc]

theorem ex_loop_spec (start : ℤ) (bs : ℕ) (hbs : 0 < bs) :
    ∀ (ds : List (List Char)) (hdr : Option (List Char)) (cur : ℤ),
      (∀ l ∈ ds, ex_isHeader (pyStrip l) = false) →
      ex_loop start bs ds hdr [] cur =
        (hdr, ((ds.drop ((start - cur).toNat)).map pyStrip).take bs) := by
  intro ds
  induction ds with
  | nil =>
    intro hdr cur _
    simp [ex_loop]
  | cons d rest ih =>
    intro hdr cur hnh
    have hd : ex_isHeader (pyStrip d) = false := hnh d (List.mem_cons_self d rest)
    have hrest : ∀ l ∈ rest, ex_isHeader (pyStrip l) = false :=
      fun l hl => hnh l (List.mem_cons_of_mem d hl)
    by_cases hcur : cur < start
    · have hstep : ex_loop start bs (d :: rest) hdr [] cur =
          ex_loop start bs rest hdr [] (cur + 1) := by
        conv_lhs => unfold ex_loop
        dsimp only
        rw [if_neg (by rw [hd]; exact Bool.false_ne_true), if_pos hcur]
      rw [hstep, ih hdr (cur + 1) hrest]
      have hk : (start - cur).toNat = (start - (cur + 1)).toNat + 1 := by omega
      rw [hk, List.drop_succ_cons]
    · have hcol := ex_loop_collect start bs (d :: rest) hdr [] cur
        (fun l hl => hnh l hl) (by omega) (by simpa using hbs)
      rw [hcol]
      have hk : (start - cur).toNat = 0 := by omega
      rw [hk]
      simp

/-- C6: for an input consisting of a header line followed by data
lines (none of them header-shaped), the block extractor returns exactly
`block_size` stripped data lines, in file order, starting at the first
data line whose running minute counter (initialised from the header's
third field) is ≥ `start_minute`, together with the header; if fewer
than `block_size` such lines remain before the end of the file it
raises the recoverable error (`ValueError`, the specification's
`InsufficientDataError`) instead of returning a short block. -/
theorem C6_block_extractor (lines : List (List Char)) (hline : List Char)
    (ds : List (List Char)) (start : ℤ) (bs : ℕ)
    (hsplit : lines = hline :: ds)
    (hhdr : ex_isHeader (pyStrip hline) = true)
    (hds : ∀ l ∈ ds, ex_isHeader (pyStrip l) = false)
    (hbs : 0 < bs) :
    ((start - ex_headerMinute (pyStrip hline)).toNat + bs ≤ ds.length →
      extract_12_min_block lines start bs =
        Except.ok (some (pyStrip hline),
          ((ds.drop ((start - ex_headerMinute (pyStrip hline)).toNat)).map pyStrip).take bs) ∧
      (((ds.drop ((start - ex_headerMinute (pyStrip hline)).toNat)).map pyStrip).take bs).length
        = bs) ∧
    (ds.length < (start - ex_headerMinute (pyStrip hline)).toNat + bs →
      ∃ e, extract_12_min_block lines start bs = Except.error e) := by
  subst hsplit
  have hstep : ex_loop start bs (hline :: ds) none [] 0 =
      ex_loop start bs ds (some (pyStrip hline)) [] (ex_headerMinute (pyStrip hline)) := by
    conv_lhs => unfold ex_loop
    dsimp only
    rw [if_pos hhdr]
  have hloop := ex_loop_spec start bs hbs ds (some (pyStrip hline))
    (ex_headerMinute (pyStrip hline)) hds
  rw [show (start - ex_headerMinute (pyStrip hline)).toNat =
      (start - ex_headerMinute (pyStrip hline)).toNat from rfl] at hloop
  have hrun : extract_12_min_block (hline :: ds) start bs =
      (if ((((ds.drop ((start - ex_headerMinute (pyStrip hline)).toNat)).map pyStrip).take bs).length < bs)
       then Except.error "Insufficient data"
       else Except.ok (some (pyStrip hline),
         ((ds.drop ((start - ex_headerMinute (pyStrip hline)).toNat)).map pyStrip).take bs)) := by
    unfold extract_12_min_block
    rw [hstep, hloop]
  have hlen : ((((ds.drop ((start - ex_headerMinute (pyStrip hline)).toNat)).map pyStrip).take bs).length) =
      min bs (ds.length - (start - ex_headerMinute (pyStrip hline)).toNat) := by
    rw [List.length_take, List.length_map, List.length_drop]
  constructor
  · intro hge
    have hfull : ((((ds.drop ((start - ex_headerMinute (pyStrip hline)).toNat)).map pyStrip).take bs).length) = bs := by
      rw [hlen]
      omega
    refine ⟨?_, hfull⟩
    rw [hrun, if_neg (by omega)]
  · intro hlt
    refine ⟨"Insufficient data", ?_⟩
    rw [hrun, if_pos (by omega)]

theorem C6_block_extractor_witness :
    (extract_12_min_block
        ["2014 174 0060".toList, "1.0 2.0 3.0".toList, "4.0 5.0 6.0".toList] 60 2 =
      Except.ok (some (pyStrip "2014 174 0060".toList),
        ((["1.0 2.0 3.0".toList, "4.0 5.0 6.0".toList].drop
          ((60 - ex_headerMinute (pyStrip "2014 174 0060".toList)).toNat)).map pyStrip).take 2) ∧
      (((["1.0 2.0 3.0".toList, "4.0 5.0 6.0".toList].drop
          ((60 - ex_headerMinute (pyStrip "2014 174 0060".toList)).toNat)).map pyStrip).take 2).length = 2) ∧
    (∃ e, extract_12_min_block ["2014 174 0060".toList, "1.0 2.0 3.0".toList] 60 2 =
      Except.error e) :=
  ⟨(C6_block_extractor ["2014 174 0060".toList, "1.0 2.0 3.0".toList, "4.0 5.0 6.0".toList]
      ("2014 174 0060".toList) ["1.0 2.0 3.0".toList, "4.0 5.0 6.0".toList] 60 2
      rfl (by decide) (by decide) (by decide)).1 (by decide),
   (C6_block_extractor ["2014 174 0060".toList, "1.0 2.0 3.0".toList]
      ("2014 174 0060".toList) ["1.0 2.0 3.0".toList] 60 2
      rfl (by decide) (by decide) (by decide)).2 (by decide)⟩
